import Mathlib

/-!
Verification development for the onboarding-automation backend.

The definitions below are a shallow embedding of the repository's Python
sources:
  * `src/main.py` (input parser, intent router, onboarding flow),
  * `src/application/database.py` (records and CRUD operations),
  * `src/services/data_collector.py`, `task_manager.py`,
    `progress_monitor.py`, `access_manager.py`.

Machine-level details that the claims do not touch (the HTTP framework,
the ORM session lifecycle, SMTP transport, console printing and the large
display-only message strings) are omitted, as the specification declares
them external collaborators.  The wall clock (`datetime.utcnow`) is passed
explicitly as a parameter, and the external MailSlurp API call is passed
as an explicit outcome value.
-/

namespace Onboarding

/-! ## ASCII string primitives used by the Python code

Python `str.lower`, `str.find`, `str.strip`, `str.split`, substring tests
and slicing, restricted to ASCII text (all inputs the code handles are
ASCII).  Strings are processed as `List Char`.
-/

def isUpperCh (c : Char) : Bool := decide (65 ≤ c.toNat ∧ c.toNat ≤ 90)

def isLowerCh (c : Char) : Bool := decide (97 ≤ c.toNat ∧ c.toNat ≤ 122)

def isDigitCh (c : Char) : Bool := decide (48 ≤ c.toNat ∧ c.toNat ≤ 57)

/-- Python regex `\w`: letters, digits and underscore (ASCII). -/
def isWordCh (c : Char) : Bool := isUpperCh c || isLowerCh c || isDigitCh c || decide (c = '_')

/-- Python regex `\s` / `str.isspace` over ASCII. -/
def isSpaceCh (c : Char) : Bool :=
  decide (c = ' ' ∨ c = '\t' ∨ c = '\n' ∨ c = '\r' ∨ c.toNat = 11 ∨ c.toNat = 12)

/-- Python `str.lower` on an ASCII character. -/
def pyLowerChar (c : Char) : Char :=
  if 65 ≤ c.toNat ∧ c.toNat ≤ 90 then Char.ofNat (c.toNat + 32) else c

/-- Python `str.lower` (ASCII). -/
def pyLower (s : String) : String := String.mk (s.toList.map pyLowerChar)

/-- Index of the first occurrence of `needle` in the list, if any
(Python `str.find` without a start offset). -/
def findSubAux (needle : List Char) : List Char → Nat → Option Nat
  | [], i => if needle.isEmpty then some i else none
  | c :: rest, i =>
    if needle.isPrefixOf (c :: rest) then some i
    else findSubAux needle rest (i + 1)

/-- Python `hay.find(needle, start)` returning `none` instead of `-1`. -/
def pyFindFrom (needle hay : List Char) (start : Nat) : Option Nat :=
  (findSubAux needle (hay.drop start) 0).map (· + start)

/-- Python `needle in hay` on lists of characters. -/
def containsSubL (needle hay : List Char) : Bool :=
  (findSubAux needle hay 0).isSome

/-- Python `needle in hay` on strings. -/
def containsSub (needle hay : String) : Bool :=
  containsSubL needle.toList hay.toList

/-- Python `str.strip()` (whitespace at both ends). -/
def pyStripL (l : List Char) : List Char :=
  ((l.dropWhile isSpaceCh).reverse.dropWhile isSpaceCh).reverse

/-- Python `str.strip()` on strings. -/
def pyStrip (s : String) : String := String.mk (pyStripL s.toList)

/-- Python `str.split()` with no separator: split on whitespace runs,
discarding empty pieces. -/
def splitWSAux : List Char → List Char → List (List Char)
  | [], acc => if acc.isEmpty then [] else [acc.reverse]
  | c :: cs, acc =>
    if isSpaceCh c then
      if acc.isEmpty then splitWSAux cs [] else acc.reverse :: splitWSAux cs []
    else splitWSAux cs (c :: acc)

def splitWS (s : String) : List String :=
  (splitWSAux s.toList []).map String.mk

/-- Python `str.zfill(2)` for the day / month fragments of dates. -/
def zfill2 (l : List Char) : List Char :=
  if l.length = 1 then '0' :: l else l

/-! ## The regex heuristics of `main.py`

Each Python `re.search` call is embedded as a direct left-to-right scanner
returning the capture of the leftmost match.  The quantified character
classes adjacent to each greedy run are disjoint in every pattern used, so
maximal runs coincide with the backtracking semantics of `re`.
-/

/-- One capitalized word `[A-Z][a-z]+` at the head of the input, with the
maximal lowercase run. -/
def matchCapWord : List Char → Option (List Char × List Char)
  | [] => none
  | c :: cs =>
    if isUpperCh c then
      let lo := cs.takeWhile isLowerCh
      if lo.isEmpty then none else some (c :: lo, cs.dropWhile isLowerCh)
    else none

/-- `\s+` at the head of the input (maximal run). -/
def matchSpaces1 (l : List Char) : Option (List Char × List Char) :=
  let sp := l.takeWhile isSpaceCh
  if sp.isEmpty then none else some (sp, l.dropWhile isSpaceCh)

/-- Greedy `(?:\s+[A-Z][a-z]+)*`; the fuel argument (instantiated with the
input length) bounds the recursion, and each iteration consumes at least
two characters. -/
def capTailAux : Nat → List Char → List Char × List Char
  | 0, l => ([], l)
  | fuel + 1, l =>
    match matchSpaces1 l with
    | none => ([], l)
    | some (sp, r1) =>
      match matchCapWord r1 with
      | none => ([], l)
      | some (w, r2) =>
        let t := capTailAux fuel r2
        (sp ++ w ++ t.1, t.2)

/-- `[A-Z][a-z]+(?:\s+[A-Z][a-z]+)+` at the head of the input: two or
more capitalized words. -/
def matchCapSeq2 (l : List Char) : Option (List Char) :=
  match matchCapWord l with
  | none => none
  | some (w1, r1) =>
    match matchSpaces1 r1 with
    | none => none
    | some (sp, r2) =>
      match matchCapWord r2 with
      | none => none
      | some (w2, r3) =>
        some (w1 ++ sp ++ w2 ++ (capTailAux r3.length r3).1)

/-- Pattern 1 of `extract_name_from_text` at the current position:
`\bfor\s+([A-Z][a-z]+(?:\s+[A-Z][a-z]+)+)` (the boundary is checked by the
scanner). -/
def matchForNameHere (l : List Char) : Option (List Char) :=
  if ['f', 'o', 'r'].isPrefixOf l then
    match matchSpaces1 (l.drop 3) with
    | none => none
    | some (_, r1) => matchCapSeq2 r1
  else none

/-- Pattern 2 of `extract_name_from_text` at the current position:
`\bemployee\s+([A-Z][a-z]+(?:\s+[A-Z][a-z]+)+)`. -/
def matchEmployeeNameHere (l : List Char) : Option (List Char) :=
  if "employee".toList.isPrefixOf l then
    match matchSpaces1 (l.drop 8) with
    | none => none
    | some (_, r1) => matchCapSeq2 r1
  else none

/-- `\b` after the consumed part: end of input or a non-word character. -/
def boundaryAfter : List Char → Bool
  | [] => true
  | c :: _ => !(isWordCh c)

/-- Pattern 3 of `extract_name_from_text` at the current position:
`\b([A-Z][a-z]+\s+[A-Z][a-z]+(?:\s+[A-Z][a-z]+)?)\b`, preferring the
three-word form (greedy optional group, with backtracking to the two-word
form when the final boundary fails). -/
def matchName3Here (l : List Char) : Option (List Char) :=
  match matchCapWord l with
  | none => none
  | some (w1, r1) =>
    match matchSpaces1 r1 with
    | none => none
    | some (sp1, r2) =>
      match matchCapWord r2 with
      | none => none
      | some (w2, r3) =>
        let two := w1 ++ sp1 ++ w2
        let three :=
          match matchSpaces1 r3 with
          | none => none
          | some (sp2, r4) =>
            match matchCapWord r4 with
            | none => none
            | some (w3, r5) =>
              if boundaryAfter r5 then some (two ++ sp2 ++ w3) else none
        match three with
        | some cap => some cap
        | none => if boundaryAfter r3 then some two else none

/-- Leftmost-match scanner for a pattern anchored at a `\b` boundary
before a word character; the boolean records whether the previous
character was a word character. -/
def scanBoundary (matchHere : List Char → Option (List Char)) :
    Bool → List Char → Option (List Char)
  | _, [] => none
  | prevWord, c :: cs =>
    match (if prevWord then none else matchHere (c :: cs)) with
    | some cap => some cap
    | none => scanBoundary matchHere (isWordCh c) cs

/-- Leftmost-match scanner for an unanchored pattern. -/
def scanPlain (matchHere : List Char → Option α) : List Char → Option α
  | [] => none
  | c :: cs =>
    match matchHere (c :: cs) with
    | some r => some r
    | none => scanPlain matchHere cs

/-- Raw capture of pattern 1 of `extract_name_from_text`. -/
def rawNamePattern1 (text : String) : Option String :=
  (scanBoundary matchForNameHere false text.toList).map String.mk

/-- Raw capture of pattern 2 of `extract_name_from_text`. -/
def rawNamePattern2 (text : String) : Option String :=
  (scanBoundary matchEmployeeNameHere false text.toList).map String.mk

/-- Raw capture of pattern 3 of `extract_name_from_text`, before the
exclusion-list filter. -/
def rawNamePattern3 (text : String) : Option String :=
  (scanBoundary matchName3Here false text.toList).map String.mk

/-- The `excluded` list of `extract_name_from_text`. -/
def excludedNameWords : List String :=
  ["Engineering", "Marketing", "Sales", "Finance", "Human Resources",
   "Operations", "Legal", "Monday", "Tuesday", "Wednesday", "Thursday",
   "Friday", "Saturday", "Sunday", "January", "February", "March",
   "April", "May", "June", "July", "August", "September", "October",
   "November", "December"]

/-- `extract_name_from_text` of `main.py`: the three regex patterns tried
in order; a pattern-3 capture is discarded when it equals or contains one
of the excluded capitalized words. -/
def extract_name_from_text (text : String) : Option String :=
  match rawNamePattern1 text with
  | some n => some n
  | none =>
    match rawNamePattern2 text with
    | some n => some n
    | none =>
      match rawNamePattern3 text with
      | some name =>
        if name ∉ excludedNameWords ∧
            (excludedNameWords.any fun d => containsSub d name) = false then
          some name
        else none
      | none => none

/-- `generate_email_from_name` of `main.py`. -/
def generate_email_from_name (name : String) : String :=
  String.mk ((pyLower name).toList.map fun c => if c = ' ' then '.' else c)
    ++ "@company.com"

/-- The `departments` dict of `extract_department`, in insertion order. -/
def departmentKeywords : List (String × String) :=
  [("engineering", "Engineering"), ("engineer", "Engineering"), ("hr", "HR"),
   ("human resources", "HR"), ("sales", "Sales"), ("marketing", "Marketing"),
   ("finance", "Finance"), ("operations", "Operations"), ("it", "IT"),
   ("information technology", "IT"), ("legal", "Legal")]

/-- First keyword (in list order) occurring as a substring of the text,
mapped to its value: the `for keyword, v in dict.items()` loops of
`main.py`. -/
def lookupFirstSub : List (String × String) → String → Option String
  | [], _ => none
  | (kw, v) :: rest, t => if containsSub kw t then some v else lookupFirstSub rest t

/-- `extract_department` of `main.py` (the argument is the already
lowercased text). -/
def extract_department (textLower : String) : Option String :=
  lookupFirstSub departmentKeywords textLower

/-- The `positions` dict of `extract_position`, in insertion order. -/
def positionKeywords : List (String × String) :=
  [("engineer", "Software Engineer"), ("senior engineer", "Senior Software Engineer"),
   ("manager", "Manager"), ("director", "Director"), ("analyst", "Analyst"),
   ("designer", "Designer"), ("developer", "Developer"), ("specialist", "Specialist"),
   ("coordinator", "Coordinator"), ("executive", "Executive"), ("lead", "Team Lead")]

/-- `extract_position` of `main.py`: first matching keyword, with the
`"New Hire"` default for non-matching text. -/
def extract_position (textLower : String) : String :=
  match lookupFirstSub positionKeywords textLower with
  | some p => p
  | none => "New Hire"

/-- A run of exactly `n` characters satisfying `p` (regex `{n}`). -/
def matchRun (p : Char → Bool) : Nat → List Char → Option (List Char × List Char)
  | 0, l => some ([], l)
  | _ + 1, [] => none
  | n + 1, c :: cs =>
    if p c then (matchRun p n cs).map (fun q => (c :: q.1, q.2)) else none

def isSepCh (c : Char) : Bool := decide (c = '-' ∨ c = '/')

/-- `\d{1,2}` immediately followed by a dash-or-slash separator (two digits preferred),
returning the digit group and the remainder after the separator. -/
def matchD12Sep : List Char → Option (List Char × List Char)
  | a :: b :: c :: rest =>
    if isDigitCh a ∧ isDigitCh b ∧ isSepCh c then some ([a, b], rest)
    else if isDigitCh a ∧ isSepCh b then some ([a], c :: rest)
    else none
  | [a, b] => if isDigitCh a ∧ isSepCh b then some ([a], []) else none
  | _ => none

/-- Trailing `\d{1,2}` (greedy, no constraint after it). -/
def matchD12 : List Char → Option (List Char × List Char)
  | a :: b :: rest =>
    if isDigitCh a ∧ isDigitCh b then some ([a, b], rest)
    else if isDigitCh a then some ([a], b :: rest)
    else none
  | [a] => if isDigitCh a then some ([a], []) else none
  | [] => none

/-- Date pattern 1 of `extract_date` at the current position:
four digits, separator, one or two digits, separator, one or two digits (separators are dash or slash), returning the three digit groups. -/
def matchIsoDateHere (l : List Char) : Option (List Char × List Char × List Char) :=
  match matchRun isDigitCh 4 l with
  | none => none
  | some (y, r1) =>
    match r1 with
    | c :: r2 =>
      if isSepCh c then
        match matchD12Sep r2 with
        | none => none
        | some (mo, r3) => (matchD12 r3).map fun q => (y, mo, q.1)
      else none
    | [] => none

/-- The `months` dict of `extract_date`, in insertion order. -/
def monthNames : List (String × Nat) :=
  [("january", 1), ("february", 2), ("march", 3), ("april", 4),
   ("may", 5), ("june", 6), ("july", 7), ("august", 8),
   ("september", 9), ("october", 10), ("november", 11), ("december", 12)]

/-- `MONTH\s+(\d{1,2})` at the current position, for a fixed month name. -/
def matchMonthDayHere (mn : List Char) (l : List Char) : Option (List Char) :=
  if mn.isPrefixOf l then
    match matchSpaces1 (l.drop mn.length) with
    | none => none
    | some (_, r1) => (matchD12 r1).map Prod.fst
  else none

/-- `(20\d{2})` at the current position. -/
def matchYearHere : List Char → Option (List Char)
  | '2' :: '0' :: a :: b :: _ =>
    if isDigitCh a ∧ isDigitCh b then some ['2', '0', a, b] else none
  | _ => none

/-- `str(month_num).zfill(2)` for month numbers `1..12`. -/
def monthNumStr (n : Nat) : String :=
  if n < 10 then "0" ++ toString n else toString n

/-- The month-name loop of `extract_date`: the first month name occurring
in the text that is also followed somewhere by a day number produces a
date; otherwise the loop falls through to the next-Monday default. -/
def monthLoop (tl : List Char) (mondayIso : String) : List (String × Nat) → String
  | [] => mondayIso
  | (mn, num) :: rest =>
    if containsSubL mn.toList tl then
      match scanPlain (matchMonthDayHere mn.toList) tl with
      | some day =>
        let year :=
          match scanPlain matchYearHere tl with
          | some y => String.mk y
          | none => "2025"
        year ++ "-" ++ monthNumStr num ++ "-" ++ String.mk (zfill2 day) ++ "T00:00:00"
      | none => monthLoop tl mondayIso rest
    else monthLoop tl mondayIso rest

/-- `extract_date` of `main.py`.  The current clock enters only through
the `get_next_monday().isoformat()` default, passed in as `mondayIso`. -/
def extract_date (textLower mondayIso : String) : String :=
  match scanPlain matchIsoDateHere textLower.toList with
  | some (y, mo, d) =>
    String.mk y ++ "-" ++ String.mk (zfill2 mo) ++ "-" ++ String.mk (zfill2 d)
      ++ "T00:00:00"
  | none => monthLoop textLower.toList mondayIso monthNames

/-- `get_manager_for_department` of `main.py`. -/
def get_manager_for_department (department : String) : String :=
  match department with
  | "Engineering" => "MGR001"
  | "HR" => "MGR002"
  | "Sales" => "MGR003"
  | "Marketing" => "MGR004"
  | "Finance" => "MGR005"
  | "Operations" => "MGR006"
  | "IT" => "MGR007"
  | "Legal" => "MGR008"
  | _ => "MGR001"

/-- Regex class `[a-f0-9]`. -/
def isHexCh (c : Char) : Bool := isDigitCh c || decide (97 ≤ c.toNat ∧ c.toNat ≤ 102)

/-- Regex class `[a-f0-9-]`. -/
def isHexDashCh (c : Char) : Bool := isHexCh c || decide (c = '-')

def isColonSpace (c : Char) : Bool := decide (c = ':') || isSpaceCh c

/-- `id[:\s]+([a-f0-9-]+)` at the current position. -/
def matchIdTagTail : List Char → Option (List Char)
  | 'i' :: 'd' :: rest =>
    if (rest.takeWhile isColonSpace).isEmpty then none
    else
      let r2 := rest.dropWhile isColonSpace
      let cap := r2.takeWhile isHexDashCh
      if cap.isEmpty then none else some cap
  | _ => none

/-- `LIT[_\s]?id[:\s]+([a-f0-9-]+)` at the current position, for the
literal `employee` or `task`. -/
def matchIdTagHere (lit : List Char) (l : List Char) : Option (List Char) :=
  if lit.isPrefixOf l then
    match l.drop lit.length with
    | c :: rest =>
      if c = '_' || isSpaceCh c then
        match matchIdTagTail rest with
        | some cap => some cap
        | none => matchIdTagTail (c :: rest)
      else matchIdTagTail (c :: rest)
    | [] => none
  else none

/-- `LIT[-_]([a-f0-9-]+)` at the current position, for the literal `emp`
or `task`. -/
def matchLitDashHere (lit : List Char) (l : List Char) : Option (List Char) :=
  if lit.isPrefixOf l then
    match l.drop lit.length with
    | c :: rest =>
      if c = '-' ∨ c = '_' then
        let cap := rest.takeWhile isHexDashCh
        if cap.isEmpty then none else some cap
      else none
    | [] => none
  else none

/-- The UUID pattern `([a-f0-9]{8}-[a-f0-9]{4}-[a-f0-9]{4}-[a-f0-9]{4}-[a-f0-9]{12})`
at the current position. -/
def matchUuidHere (l : List Char) : Option (List Char) :=
  match matchRun isHexCh 8 l with
  | none => none
  | some (a, r1) =>
    match r1 with
    | '-' :: r2 =>
      match matchRun isHexCh 4 r2 with
      | none => none
      | some (b, r3) =>
        match r3 with
        | '-' :: r4 =>
          match matchRun isHexCh 4 r4 with
          | none => none
          | some (c, r5) =>
            match r5 with
            | '-' :: r6 =>
              match matchRun isHexCh 4 r6 with
              | none => none
              | some (d, r7) =>
                match r7 with
                | '-' :: r8 =>
                  match matchRun isHexCh 12 r8 with
                  | none => none
                  | some (e, _) =>
                    some (a ++ '-' :: b ++ '-' :: c ++ '-' :: d ++ '-' :: e)
                | _ => none
            | _ => none
        | _ => none
    | _ => none

/-- `extract_employee_id` of `main.py` (takes the lowercased text). -/
def extract_employee_id (textLower : String) : Option String :=
  let tl := textLower.toList
  match scanPlain (matchIdTagHere "employee".toList) tl with
  | some cap => some (String.mk cap)
  | none =>
    match scanPlain (matchLitDashHere "emp".toList) tl with
    | some cap => some ("emp-" ++ String.mk cap)
    | none => (scanPlain matchUuidHere tl).map String.mk

/-- `extract_task_id` of `main.py` (takes the lowercased text). -/
def extract_task_id (textLower : String) : Option String :=
  let tl := textLower.toList
  match scanPlain (matchIdTagHere "task".toList) tl with
  | some cap => some (String.mk cap)
  | none =>
    match scanPlain (matchLitDashHere "task".toList) tl with
    | some cap => some ("task-" ++ String.mk cap)
    | none => (scanPlain matchUuidHere tl).map String.mk

/-! ## `extract_task_name` and `parse_input` of `main.py` -/

/-- The `(prefix, suffix)` pattern list of `extract_task_name`. -/
def taskNamePatterns : List (String × String) :=
  [("complete ", ""), ("mark ", " as complete"), ("mark ", " complete"),
   ("finish ", ""), ("done with ", ""), ("completed ", "")]

/-- The sentence terminators of `extract_task_name`. -/
def taskTerminators : List String := [" for ", " by ", " on ", ".", "!", "?"]

/-- The terminator fold of `extract_task_name`: the smallest terminator
position at or after `start`, defaulting to the text length. -/
def taskNameEnd (tl : List Char) (start : Nat) : Nat :=
  taskTerminators.foldl
    (fun e term =>
      match pyFindFrom term.toList tl start with
      | some pos => if pos < e then pos else e
      | none => e)
    tl.length

/-- One iteration of the pattern loop of `extract_task_name` (`text` is
the original text, `tl` its lowercase form). -/
def taskNameFromPattern (text tl : List Char) (pat : String × String) : Option String :=
  let pfx := pat.1.toList
  let sfx := pat.2.toList
  if containsSubL pfx tl then
    let start := (pyFindFrom pfx tl 0).getD 0 + pfx.length
    let e :=
      if ¬ sfx.isEmpty ∧ containsSubL sfx (tl.drop start) then
        (pyFindFrom sfx tl start).getD 0
      else taskNameEnd tl start
    let tn := pyStripL ((text.drop start).take (e - start))
    if ¬ tn.isEmpty ∧ tn.length > 3 then some (String.mk tn) else none
  else none

/-- The keyword fallback list of `extract_task_name`. -/
def taskKeywords : List String :=
  ["training", "security", "workstation", "equipment", "handbook",
   "paperwork", "meeting", "environment", "git", "code", "review"]

def firstTaskPattern (text tl : List Char) : List (String × String) → Option String
  | [] => none
  | pat :: rest =>
    match taskNameFromPattern text tl pat with
    | some r => some r
    | none => firstTaskPattern text tl rest

def firstTaskKeyword (tl : List Char) : List String → Option String
  | [] => none
  | kw :: rest =>
    if containsSubL kw.toList tl then some kw else firstTaskKeyword tl rest

/-- `extract_task_name` of `main.py`. -/
def extract_task_name (text : String) : Option String :=
  let tlist := text.toList
  let tl := tlist.map pyLowerChar
  match firstTaskPattern tlist tl taskNamePatterns with
  | some r => some r
  | none => firstTaskKeyword tl taskKeywords

/-- Python `key in dict` over the association-list model of a dict. -/
def hasKey (m : List (String × String)) (k : String) : Bool :=
  m.any fun p => p.1 = k

/-- The structured keys that make `parse_input` return `extra` directly. -/
def structuredKeys : List String := ["name", "email", "employee_id", "task_id", "task_name"]

/-- The `result["name"] / result["email"]` assignments of `parse_input`. -/
def namePart (text : String) : List (String × String) :=
  match extract_name_from_text text with
  | some n => [("name", n), ("email", generate_email_from_name n)]
  | none => []

/-- The `result["department"]` assignment of `parse_input`. -/
def deptPart (tl : String) : List (String × String) :=
  match extract_department tl with
  | some d => [("department", d)]
  | none => []

/-- The `result["position"]` assignment of `parse_input`. -/
def posPart (tl : String) : List (String × String) :=
  if extract_position tl ≠ "" then [("position", extract_position tl)] else []

/-- The `result["joining_date"]` assignments of `parse_input`. -/
def joinPart (text tl mondayIso : String) : List (String × String) :=
  if containsSub "joining" tl = true ∨ containsSub "start" tl = true then
    [("joining_date", extract_date tl mondayIso)]
  else if (extract_name_from_text text).isSome then [("joining_date", mondayIso)]
  else []

/-- The `result["manager_id"]` assignment of `parse_input`. -/
def mgrPart (tl : String) : List (String × String) :=
  match extract_department tl with
  | some d => [("manager_id", get_manager_for_department d)]
  | none => []

/-- The `result["employee_id"]` assignment of `parse_input`. -/
def empPart (tl : String) : List (String × String) :=
  match extract_employee_id tl with
  | some e => [("employee_id", e)]
  | none => []

/-- The `result["report_type"]` assignments of `parse_input`. -/
def reportPart (tl : String) : List (String × String) :=
  if containsSub "summary" tl = true ∨ containsSub "dashboard" tl = true ∨
      containsSub "overall" tl = true then [("report_type", "summary")]
  else if containsSub "issue" tl = true ∨ containsSub "alert" tl = true ∨
      containsSub "problem" tl = true then [("report_type", "issues")]
  else if containsSub "report" tl = true then [("report_type", "employee")]
  else []

/-- The `result["type"]` assignments of `parse_input`. -/
def notifPart (tl : String) : List (String × String) :=
  if containsSub "welcome" tl = true then [("type", "welcome")]
  else if containsSub "remind" tl = true ∨ containsSub "reminder" tl = true then
    [("type", "reminder")]
  else if containsSub "overdue" tl = true then [("type", "overdue")]
  else []

/-- The `result["task_id"] / result["task_name"]` assignments of
`parse_input`. -/
def taskPart (text tl : String) : List (String × String) :=
  match extract_task_id tl with
  | some tid => [("task_id", tid)]
  | none =>
    match extract_task_name text with
    | some tn => [("task_name", tn)]
    | none => []

/-- The free-text branch of `parse_input`: the field map assembled from
the extractors, in the insertion order of the Python dict (each key is
assigned at most once). -/
def textParse (text mondayIso : String) : List (String × String) :=
  let tl := pyLower text
  namePart text ++ deptPart tl ++ posPart tl ++ joinPart text tl mondayIso ++
    mgrPart tl ++ empPart tl ++ reportPart tl ++ notifPart tl ++ taskPart text tl

/-- `parse_input` of `main.py`: a non-empty `extra` dict carrying one of
the structured keys is returned unchanged; otherwise the field map is
extracted from the free text.  `mondayIso` is the precomputed
`get_next_monday().isoformat()` value of the current clock. -/
def parse_input (text : String) (extra : List (String × String)) (mondayIso : String) :
    List (String × String) :=
  if ¬ extra.isEmpty ∧ (structuredKeys.any fun k => hasKey extra k) = true then extra
  else textParse text mondayIso

/-! ## Data model (`application/database.py`)

Timestamps are modelled as integers (seconds); `datetime.utcnow()` is an
explicit `now` parameter.  Fresh primary keys (`uuid4` defaults) are
modelled by the `nextId` counter of the store.  The `Employee` record
carries, besides the columns of `application/database.py`, the
`personal_email` column that `services/data_collector.py` reads and
writes: that column belongs to a newer schema whose `database.py` is not
part of the sources (see `Database.get_employee_by_personal_email`).
-/

abbrev DateTime := Int

def oneDay : Int := 86400

inductive TaskStatus
  | pending
  | in_progress
  | completed
  | overdue
  deriving DecidableEq

inductive AccessType
  | email
  | system_credentials
  | workspace
  | vpn
  | building
  deriving DecidableEq

inductive AccessStatus
  | pending
  | in_progress
  | completed
  | failed
  deriving DecidableEq

inductive NotificationType
  | welcome
  | task_reminder
  | task_overdue
  | access_granted
  | completion
  deriving DecidableEq

structure Employee where
  id : String
  name : String
  email : Option String
  personal_email : Option String
  phone : Option String
  department : String
  position : Option String
  joining_date : DateTime
  manager_id : Option String
  status : String
  created_at : DateTime
  updated_at : DateTime
  deriving DecidableEq

structure Task where
  id : String
  employee_id : String
  title : String
  description : String
  category : String
  status : TaskStatus
  priority : Int
  due_date : Option DateTime
  completed_at : Option DateTime
  created_at : DateTime
  updated_at : DateTime
  deriving DecidableEq

structure AccessRequest where
  id : String
  employee_id : String
  access_type : AccessType
  status : AccessStatus
  requested_at : DateTime
  completed_at : Option DateTime
  details : String
  error_message : Option String
  deriving DecidableEq

structure Notification where
  id : String
  employee_id : String
  type : NotificationType
  subject : String
  message : String
  sent_at : Option DateTime
  status : String
  error_message : Option String
  created_at : DateTime
  deriving DecidableEq

structure Database where
  employees : List Employee
  tasks : List Task
  accessRequests : List AccessRequest
  notifications : List Notification
  nextId : Nat
  deriving DecidableEq

/-- Fresh primary keys (`uuid4` in the source) from the store counter. -/
def genId (n : Nat) : String := "uuid-" ++ toString n

def Database.get_employee (db : Database) (employee_id : String) : Option Employee :=
  db.employees.find? fun e => e.id = employee_id

def Database.get_all_employees (db : Database) : List Employee :=
  db.employees

def Database.get_task (db : Database) (task_id : String) : Option Task :=
  db.tasks.find? fun t => t.id = task_id

def Database.get_tasks_by_employee (db : Database) (employee_id : String) : List Task :=
  db.tasks.filter fun t => t.employee_id = employee_id

def Database.get_pending_tasks (db : Database) (employee_id : Option String) : List Task :=
  match employee_id with
  | some e => db.tasks.filter fun t => t.status = TaskStatus.pending ∧ t.employee_id = e
  | none => db.tasks.filter fun t => t.status = TaskStatus.pending

def Database.get_access_requests (db : Database) (employee_id : String) : List AccessRequest :=
  db.accessRequests.filter fun r => r.employee_id = employee_id

def Database.create_employee (db : Database) (e : Employee) : Employee × Database :=
  let e2 := { e with id := genId db.nextId }
  (e2, { db with employees := db.employees ++ [e2], nextId := db.nextId + 1 })

def Database.create_task (db : Database) (t : Task) : Task × Database :=
  let t2 := { t with id := genId db.nextId }
  (t2, { db with tasks := db.tasks ++ [t2], nextId := db.nextId + 1 })

def Database.create_access_request (db : Database) (r : AccessRequest) :
    AccessRequest × Database :=
  let r2 := { r with id := genId db.nextId }
  (r2, { db with accessRequests := db.accessRequests ++ [r2], nextId := db.nextId + 1 })

def Database.create_notification (db : Database) (n : Notification) :
    Notification × Database :=
  let n2 := { n with id := genId db.nextId }
  (n2, { db with notifications := db.notifications ++ [n2], nextId := db.nextId + 1 })

/-! ### Update operations and their keyword arguments

A patch field is `some v` exactly when the corresponding keyword argument
is passed to the Python `update_*` call.  The `updated_at` columns of
`Employee` and `Task` are declared with `onupdate=datetime.utcnow`, so an
UPDATE refreshes them to the current clock whenever they are not set
explicitly; `AccessRequest` and `Notification` have no such column.
-/

structure EmployeePatch where
  name : Option String := none
  email : Option (Option String) := none
  personal_email : Option (Option String) := none
  phone : Option (Option String) := none
  department : Option String := none
  position : Option (Option String) := none
  joining_date : Option DateTime := none
  manager_id : Option (Option String) := none
  status : Option String := none
  created_at : Option DateTime := none
  updated_at : Option DateTime := none
  deriving DecidableEq

def applyEmployeePatch (now : DateTime) (p : EmployeePatch) (e : Employee) : Employee :=
  { id := e.id
    name := p.name.getD e.name
    email := p.email.getD e.email
    personal_email := p.personal_email.getD e.personal_email
    phone := p.phone.getD e.phone
    department := p.department.getD e.department
    position := p.position.getD e.position
    joining_date := p.joining_date.getD e.joining_date
    manager_id := p.manager_id.getD e.manager_id
    status := p.status.getD e.status
    created_at := p.created_at.getD e.created_at
    updated_at := p.updated_at.getD now }

structure TaskPatch where
  employee_id : Option String := none
  title : Option String := none
  description : Option String := none
  category : Option String := none
  status : Option TaskStatus := none
  priority : Option Int := none
  due_date : Option (Option DateTime) := none
  completed_at : Option (Option DateTime) := none
  created_at : Option DateTime := none
  updated_at : Option DateTime := none
  deriving DecidableEq

def applyTaskPatch (now : DateTime) (p : TaskPatch) (t : Task) : Task :=
  { id := t.id
    employee_id := p.employee_id.getD t.employee_id
    title := p.title.getD t.title
    description := p.description.getD t.description
    category := p.category.getD t.category
    status := p.status.getD t.status
    priority := p.priority.getD t.priority
    due_date := p.due_date.getD t.due_date
    completed_at := p.completed_at.getD t.completed_at
    created_at := p.created_at.getD t.created_at
    updated_at := p.updated_at.getD now }

structure AccessRequestPatch where
  employee_id : Option String := none
  access_type : Option AccessType := none
  status : Option AccessStatus := none
  requested_at : Option DateTime := none
  completed_at : Option (Option DateTime) := none
  details : Option String := none
  error_message : Option (Option String) := none
  deriving DecidableEq

def applyAccessRequestPatch (p : AccessRequestPatch) (r : AccessRequest) : AccessRequest :=
  { id := r.id
    employee_id := p.employee_id.getD r.employee_id
    access_type := p.access_type.getD r.access_type
    status := p.status.getD r.status
    requested_at := p.requested_at.getD r.requested_at
    completed_at := p.completed_at.getD r.completed_at
    details := p.details.getD r.details
    error_message := p.error_message.getD r.error_message }

structure NotificationPatch where
  employee_id : Option String := none
  type : Option NotificationType := none
  subject : Option String := none
  message : Option String := none
  sent_at : Option (Option DateTime) := none
  status : Option String := none
  error_message : Option (Option String) := none
  created_at : Option DateTime := none
  deriving DecidableEq

def applyNotificationPatch (p : NotificationPatch) (n : Notification) : Notification :=
  { id := n.id
    employee_id := p.employee_id.getD n.employee_id
    type := p.type.getD n.type
    subject := p.subject.getD n.subject
    message := p.message.getD n.message
    sent_at := p.sent_at.getD n.sent_at
    status := p.status.getD n.status
    error_message := p.error_message.getD n.error_message
    created_at := p.created_at.getD n.created_at }

/-- `query(...).filter(id == key).first()` followed by field assignment:
the first record with the key is replaced, everything else untouched. -/
def updateFirstBy (p : α → Prop) [DecidablePred p] (f : α → α) : List α → List α
  | [] => []
  | x :: xs => if p x then f x :: xs else x :: updateFirstBy p f xs

def Database.update_employee (db : Database) (employee_id : String)
    (kw : EmployeePatch) (now : DateTime) : Option Employee × Database :=
  match db.employees.find? (fun e => e.id = employee_id) with
  | none => (none, db)
  | some e =>
    (some (applyEmployeePatch now kw e),
     { db with employees :=
        updateFirstBy (fun x => x.id = employee_id) (applyEmployeePatch now kw) db.employees })

def Database.update_task (db : Database) (task_id : String)
    (kw : TaskPatch) (now : DateTime) : Option Task × Database :=
  match db.tasks.find? (fun t => t.id = task_id) with
  | none => (none, db)
  | some t =>
    (some (applyTaskPatch now kw t),
     { db with tasks :=
        updateFirstBy (fun x => x.id = task_id) (applyTaskPatch now kw) db.tasks })

def Database.update_access_request (db : Database) (request_id : String)
    (kw : AccessRequestPatch) : Option AccessRequest × Database :=
  match db.accessRequests.find? (fun r => r.id = request_id) with
  | none => (none, db)
  | some r =>
    (some (applyAccessRequestPatch kw r),
     { db with accessRequests :=
        updateFirstBy (fun x => x.id = request_id) (applyAccessRequestPatch kw) db.accessRequests })

def Database.update_notification (db : Database) (notification_id : String)
    (kw : NotificationPatch) : Option Notification × Database :=
  match db.notifications.find? (fun n => n.id = notification_id) with
  | none => (none, db)
  | some n =>
    (some (applyNotificationPatch kw n),
     { db with notifications :=
        updateFirstBy (fun x => x.id = notification_id) (applyNotificationPatch kw) db.notifications })

/-! ## `DataCollector.create_employee` (`services/data_collector.py`) -/

/-- Modelled from the spec: `Database.get_employee_by_personal_email`.
`DataCollector.create_employee` calls this persistence-layer lookup (and
stores a `personal_email` column) but the sources only contain an older
`application/database.py` without the method or the column — only the
caller is in the sources.  The spec describes the persistence layer as
"simple key-value CRUD by primary key and a few filtered lookups"; this
is the lookup filtered on the personal email column. -/
def Database.get_employee_by_personal_email (db : Database) (pe : String) :
    Option Employee :=
  db.employees.find? fun e => e.personal_email = some pe

/-- Python truthiness of an optional string argument (`not name`). -/
def truthy : Option String → Bool
  | none => false
  | some s => !s.isEmpty

/-- The possible runtime values of the `joining_date` argument, for the
`isinstance(joining_date, datetime)` check: a datetime, a string (what
`parse_input` produces), or `None`. -/
inductive JoiningDateArg
  | dt (d : DateTime)
  | str (s : String)
  | nil
  deriving DecidableEq

/-- `DataCollector.create_employee`: the validation chain followed by
record creation.  `ValueError` messages become `Except.error`; the fresh
primary key is generated by the persistence layer. -/
def create_employee (db : Database) (name personal_email department : Option String)
    (joining_date : JoiningDateArg) (manager_id phone position : Option String)
    (now : DateTime) : Except String (Employee × Database) :=
  if truthy name = false ∨ truthy personal_email = false ∨ truthy department = false then
    .error "Name, personal email, and department are required"
  else if containsSub "@" (personal_email.getD "") = false then
    .error "Invalid email format"
  else if (db.get_employee_by_personal_email (personal_email.getD "")).isSome then
    .error ("Employee with personal email " ++ personal_email.getD "" ++ " already exists")
  else
    match joining_date with
    | .dt d =>
      .ok (db.create_employee
        { id := ""
          name := name.getD ""
          email := none
          personal_email := personal_email
          phone := phone
          department := department.getD ""
          position := position
          joining_date := d
          manager_id := manager_id
          status := "active"
          created_at := now
          updated_at := now })
    | _ => .error "joining_date must be a datetime object"

/-! ## `TaskManager.assign_onboarding_tasks` (`services/task_manager.py`) -/

/-- One row of the task-template tables of `task_manager.py`. -/
structure TaskRow where
  title : String
  description : String
  category : String
  priority : Int
  due_days : Int
  deriving DecidableEq

/-- The eight `core_task_data` rows of `TaskManager._get_core_tasks`. -/
def core_task_data : List TaskRow :=
  [⟨"Complete Company Policy Acknowledgment",
    "Read and acknowledge the employee handbook, code of conduct, and company policies.",
    "policy", 1, 3⟩,
   ⟨"Equipment Checklist - Verify Laptop and Accessories",
    "Confirm receipt of laptop, charger, mouse, keyboard, and other equipment.",
    "equipment", 1, 1⟩,
   ⟨"Setup Workstation and Login Credentials",
    "Setup your workstation, test all login credentials, and verify access to systems.",
    "equipment", 1, 2⟩,
   ⟨"Complete Information Security Training",
    "Complete mandatory cybersecurity awareness training module.",
    "training", 1, 5⟩,
   ⟨"Review Emergency Procedures",
    "Review building evacuation procedures and emergency contacts.",
    "policy", 2, 3⟩,
   ⟨"Schedule 1:1 Meeting with Manager",
    "Schedule and complete initial 1:1 meeting with your direct manager.",
    "meeting", 1, 2⟩,
   ⟨"Complete HR Onboarding Forms",
    "Fill out tax forms, benefits enrollment, and emergency contact information.",
    "policy", 1, 7⟩,
   ⟨"Join Company Communication Channels",
    "Join Slack workspace, team channels, and company-wide groups.",
    "communication", 2, 1⟩]

/-- The `dept_tasks_map` of `TaskManager._get_department_tasks`
(department tasks are created with priority 2). -/
def dept_tasks_map (department : String) : List TaskRow :=
  match department with
  | "Engineering" =>
    [⟨"Setup Development Environment",
      "Install and configure IDE, Git, Docker, and other dev tools.", "technical", 2, 3⟩,
     ⟨"Complete Code Review Training",
      "Learn code review process and best practices.", "training", 2, 5⟩,
     ⟨"Review Architecture Documentation",
      "Study system architecture and technical documentation.", "technical", 2, 7⟩]
  | "Sales" =>
    [⟨"Complete Product Training",
      "Learn about all products and services.", "training", 2, 5⟩,
     ⟨"Shadow Sales Calls",
      "Join 3-5 sales calls to learn the process.", "training", 2, 10⟩,
     ⟨"Setup CRM Account",
      "Configure Salesforce and learn pipeline management.", "technical", 2, 2⟩]
  | "Marketing" =>
    [⟨"Review Brand Guidelines",
      "Study company branding, voice, and style guide.", "policy", 2, 3⟩,
     ⟨"Setup Marketing Tools",
      "Configure access to marketing automation and analytics tools.", "technical", 2, 2⟩,
     ⟨"Meet Content Team",
      "Introduction meeting with content and design teams.", "meeting", 2, 5⟩]
  | "HR" =>
    [⟨"HRIS Training", "Learn to use HR information system.", "training", 2, 3⟩,
     ⟨"Review Hiring Process",
      "Understand recruitment and hiring procedures.", "policy", 2, 5⟩,
     ⟨"Complete Compliance Training",
      "Employment law and compliance certification.", "training", 2, 7⟩]
  | _ => []

/-- The role-training row of `TaskManager._get_training_tasks`. -/
def trainingRow (position : String) : TaskRow :=
  ⟨"Complete " ++ position ++ " Role Training",
   "Complete all required training modules for " ++ position ++ " position.",
   "training", 2, 14⟩

/-- Create one task per template row through the persistence layer
(status PENDING, due date `now + due_days`). -/
def createTasksFromRows (employee_id : String) (now : DateTime) :
    List TaskRow → Database → List Task × Database
  | [], db => ([], db)
  | row :: rest, db =>
    let created := db.create_task
      { id := ""
        employee_id := employee_id
        title := row.title
        description := row.description
        category := row.category
        status := TaskStatus.pending
        priority := row.priority
        due_date := some (now + row.due_days * oneDay)
        completed_at := none
        created_at := now
        updated_at := now }
    let r := createTasksFromRows employee_id now rest created.2
    (created.1 :: r.1, r.2)

/-- `TaskManager.assign_onboarding_tasks`: core tasks for everyone,
department tasks when the `department` argument is truthy, one training
task when the employee record has a truthy position. -/
def assign_onboarding_tasks (db : Database) (employee_id : String)
    (department : Option String) (now : DateTime) :
    Except String (List Task × Database) :=
  match db.get_employee employee_id with
  | none => .error ("Employee " ++ employee_id ++ " not found")
  | some emp =>
    let core := createTasksFromRows employee_id now core_task_data db
    let afterDept :=
      if truthy department = true then
        let d := createTasksFromRows employee_id now (dept_tasks_map (department.getD "")) core.2
        (core.1 ++ d.1, d.2)
      else core
    if truthy emp.position = true then
      let tr := createTasksFromRows employee_id now [trainingRow (emp.position.getD "")] afterDept.2
      .ok (afterDept.1 ++ tr.1, tr.2)
    else .ok afterDept

/-! ## `ProgressMonitor.get_employee_progress` (`services/progress_monitor.py`) -/

/-- Round-half-to-even (Python `round`) of a rational to an integer
(`Rat.floor` is the computable floor of a rational). -/
def roundHalfEven (q : ℚ) : ℤ :=
  let f := q.floor
  if q - f < 1 / 2 then f
  else if 1 / 2 < q - f then f + 1
  else if f % 2 = 0 then f else f + 1

/-- Python `round(x, 1)` on exact rationals. -/
def round1 (q : ℚ) : ℚ := (roundHalfEven (q * 10) : ℚ) / 10

/-- The fields of the progress dict that the claims read (the
display-only `message` string is omitted). -/
structure Progress where
  employee_id : String
  employee_name : String
  total_tasks : Nat
  completed_tasks : Nat
  pending_tasks : Nat
  overdue_tasks : Nat
  completion_percentage : ℚ
  status : String
  deriving DecidableEq

/-- `ProgressMonitor.get_employee_progress`: the per-status counts, the
completion percentage (completed over total, as a percentage, rounded to
one decimal in the returned dict) and the status classification, with the
dedicated result for employees without tasks. -/
def get_employee_progress (db : Database) (employee_id : String) :
    Except String Progress :=
  match db.get_employee employee_id with
  | none => .error ("Employee with ID " ++ employee_id ++ " not found.")
  | some emp =>
    let tasks := db.get_tasks_by_employee employee_id
    if tasks.isEmpty then
      .ok ⟨employee_id, emp.name, 0, 0, 0, 0, 0, "no_tasks_assigned"⟩
    else
      let completed := (tasks.filter fun t => t.status = TaskStatus.completed).length
      let pending := (tasks.filter fun t => t.status = TaskStatus.pending).length
      let overdue := (tasks.filter fun t => t.status = TaskStatus.overdue).length
      let p : ℚ := (completed : ℚ) / (tasks.length : ℚ) * 100
      let status :=
        if p = 100 then "completed"
        else if 0 < overdue then "needs_attention"
        else if 75 ≤ p then "on_track"
        else if 50 ≤ p then "in_progress"
        else if 0 < p then "started"
        else "not_started"
      .ok ⟨employee_id, emp.name, tasks.length, completed, pending, overdue, round1 p, status⟩

/-! ## `AccessManager` email provisioning (`services/access_manager.py`)

The single external MailSlurp call (`_create_mailslurp_inbox`) is passed
in as its outcome: `Except.ok` an inbox, `Except.error` the exception or
API-error message.  The generated random password is likewise passed in.
-/

structure MailInbox where
  email_address : String
  inbox_id : String
  deriving DecidableEq

/-- The fields of the `generate_real_email` result dict that later code
reads. -/
structure EmailResult where
  success : Bool
  email : String
  service : String
  inbox_id : Option String
  error_message : Option String
  deriving DecidableEq

/-- `AccessManager.generate_real_email`: one MailSlurp attempt; on any
failure the single fallback address is built from the name, with no
second attempt.  `none` models the `IndexError` Python raises when the
name has no parts. -/
def generate_real_email (name : String) (api : Except String MailInbox) :
    Option EmailResult :=
  match api with
  | .ok inbox => some ⟨true, inbox.email_address, "MailSlurp", some inbox.inbox_id, none⟩
  | .error e =>
    match splitWS (pyStrip name) with
    | [] => none
    | p0 :: ps =>
      let lastLower :=
        if ps.isEmpty then "employee" else pyLower (((p0 :: ps).getLast?).getD p0)
      some ⟨false, pyLower p0 ++ "." ++ lastLower ++ "@fallback.local",
            "Fallback", none, some e⟩

/-- The credential dict assembled by `request_email_account` (fields the
claims read). -/
structure EmailCredentials where
  email_address : String
  password : String
  service : String
  inbox_id : Option String
  is_fallback : Bool
  deriving DecidableEq

/-- `AccessManager.request_email_account`: creates the EMAIL access
request as PENDING, performs the single MailSlurp attempt, and updates
the request to COMPLETED — the source assigns `AccessStatus.COMPLETED` in
both the success branch and the fallback branch.  `none` models the
`AttributeError` on a missing employee and the `IndexError` on an empty
name. -/
def request_email_account (db : Database) (employee_id : String)
    (api : Except String MailInbox) (pw : String) (now : DateTime) :
    Option (AccessRequest × EmailCredentials × Database) :=
  match db.get_employee employee_id with
  | none => none
  | some emp =>
    let created := db.create_access_request
      { id := ""
        employee_id := employee_id
        access_type := AccessType.email
        status := AccessStatus.pending
        requested_at := now
        completed_at := none
        details := "Creating REAL email account for " ++ emp.name ++ " via MailSlurp..."
        error_message := none }
    match generate_real_email emp.name api with
    | none => none
    | some er =>
      -- both source branches assign COMPLETED; only the details differ
      let details :=
        if er.success then
          "Real email created: " ++ er.email ++ " via " ++ er.service
        else
          "Using fallback email: " ++ er.email ++ " (Email service temporarily unavailable)"
      let upd := created.2.update_access_request created.1.id
        { status := some AccessStatus.completed
          completed_at := some (some now)
          details := some details }
      some (created.1, ⟨er.email, pw, er.service, er.inbox_id, !er.success⟩, upd.2)

/-! ## The `/execute` router (`execute_intent` of `main.py`) -/

structure WorkerRequest where
  request_id : String
  agent_name : String
  intent : String
  deriving DecidableEq

structure OutputData where
  result : String
  confidence : Option ℚ
  details : Option String
  deriving DecidableEq

structure ErrorData where
  type : String
  message : String
  deriving DecidableEq

structure WorkerResponse where
  request_id : String
  agent_name : String
  status : String
  output : Option OutputData
  error : Option ErrorData
  deriving DecidableEq

/-- The nine intents of the if/elif dispatch of `execute_intent`. -/
def supportedIntents : List String :=
  ["onboarding.create", "onboarding.collect_data", "onboarding.setup_access",
   "onboarding.assign_tasks", "onboarding.check_progress",
   "onboarding.send_notifications", "onboarding.generate_report",
   "onboarding.get_status", "onboarding.complete_task"]

/-- The if/elif chain of `execute_intent`: `some` the dispatched handler
outcome, `none` when no branch matches.  The behaviour of the dispatched
handler is passed in as `handler`: `Except.ok` a normal return,
`Except.error` a raised exception message. -/
def dispatch (req : WorkerRequest) (handler : String → Except String OutputData) :
    Option (Except String OutputData) :=
  if req.intent = "onboarding.create" then some (handler req.intent)
  else if req.intent = "onboarding.collect_data" then some (handler req.intent)
  else if req.intent = "onboarding.setup_access" then some (handler req.intent)
  else if req.intent = "onboarding.assign_tasks" then some (handler req.intent)
  else if req.intent = "onboarding.check_progress" then some (handler req.intent)
  else if req.intent = "onboarding.send_notifications" then some (handler req.intent)
  else if req.intent = "onboarding.generate_report" then some (handler req.intent)
  else if req.intent = "onboarding.get_status" then some (handler req.intent)
  else if req.intent = "onboarding.complete_task" then some (handler req.intent)
  else none

/-- `execute_intent` of `main.py`: the uniform response envelope.  A
handler that returns yields the success envelope; an unmatched intent the
`unsupported_intent` error envelope; a raised exception (caught by the
surrounding `try`) the `runtime_error` envelope with the exception
message. -/
def execute_intent (req : WorkerRequest) (handler : String → Except String OutputData) :
    WorkerResponse :=
  match dispatch req handler with
  | some (.ok out) => ⟨req.request_id, req.agent_name, "success", some out, none⟩
  | some (.error msg) =>
    ⟨req.request_id, req.agent_name, "error", none, some ⟨"runtime_error", msg⟩⟩
  | none =>
    ⟨req.request_id, req.agent_name, "error", none,
     some ⟨"unsupported_intent", "Intent " ++ req.intent ++ " is not supported"⟩⟩

/-! ## The onboarding-creation flow (`handle_create_onboarding` of `main.py`) -/

/-- What `handle_create_onboarding` would have to produce for the rest of
the flow to be observed: the created employee, whether the access-setup
background task was scheduled, the assigned tasks, and the store right
after creation and at the end.  In the frozen source no such result is
ever produced — see `handle_create_onboarding`. -/
structure FlowResult where
  employee : Employee
  provisioning_initiated : Bool
  tasks : List Task
  dbAfterCreate : Database
  dbFinal : Database
  deriving DecidableEq

/-- `handle_create_onboarding` of `main.py` (lines 182-236).  Its first
statement calls `data_collector.create_employee(name=..., email=..., ...)`
(line 191), but `create_employee` in `services/data_collector.py` renamed
that parameter to `personal_email`; Python binds keyword arguments by
name, so the call raises a TypeError (unexpected keyword argument email)
on every invocation — before the body of `create_employee` runs, before
any employee record is created, and before
`background_tasks.add_task(access_manager.setup_all_access, employee.id)`
on line 200 can schedule provisioning.  The exception propagates to the
surrounding `try` of `execute_intent` like any other raised error.  The
flow is therefore the constant raised error; the exact wording of the
interpreter message is nominal.  The arguments are the handler inputs,
kept so that statements range over them. -/
def handle_create_onboarding (db : Database)
    (name email department : Option String) (joining_date : JoiningDateArg)
    (manager_id phone position : Option String) (now : DateTime) :
    Except String FlowResult :=
  Except.error "create_employee() got an unexpected keyword argument: email"

/-- Modelled from the spec: "Employee completeness: fraction of required
profile fields populated".  The required profile fields are the
non-nullable columns of the employee record: name, email, department and
joining date (the joining date column is always populated in the model,
having a non-optional type).  This counts the populated ones. -/
def populatedRequiredFields (e : Employee) : ℕ :=
  (if e.name ≠ "" then 1 else 0) + (if truthy e.email = true then 1 else 0) +
    (if e.department ≠ "" then 1 else 0) + 1

/-- Modelled from the spec: the employee completeness as the spec's words
define it — the fraction of required profile fields populated. -/
def profileFieldsFraction (e : Employee) : ℚ :=
  (populatedRequiredFields e : ℚ) / 4

/-- The completeness gate of claim C1, read on the value the
progress/completeness state model computes: the gate passes when the
employee completeness computed by `get_employee_progress` is complete
(100 percent). -/
def completenessGatePasses (db : Database) (employee_id : String) : Bool :=
  match get_employee_progress db employee_id with
  | .ok p => p.completion_percentage = 100
  | .error _ => false

/-! ## Helper lemmas -/

lemma dispatch_eq (req : WorkerRequest) (handler : String → Except String OutputData) :
    dispatch req handler =
      if req.intent ∈ supportedIntents then some (handler req.intent) else none := by
  unfold dispatch
  split_ifs with h1 h2 h3 h4 h5 h6 h7 h8 h9 <;> simp_all [supportedIntents]

lemma hasKey_append (l1 l2 : List (String × String)) (k : String) :
    hasKey (l1 ++ l2) k = (hasKey l1 k || hasKey l2 k) := by
  simp [hasKey, List.any_append]

lemma lookupFirstSub_eq_find? (l : List (String × String)) (t : String) :
    lookupFirstSub l t = (l.find? fun p => containsSub p.1 t).map Prod.snd := by
  induction l with
  | nil => rfl
  | cons p rest ih =>
    obtain ⟨kw, v⟩ := p
    by_cases h : containsSub kw t = true
    · rw [lookupFirstSub, if_pos h, List.find?_cons_of_pos _ (by simpa using h)]
      rfl
    · rw [lookupFirstSub, if_neg (by simp_all), ih,
        List.find?_cons_of_neg _ (by simpa using h)]

/-! ## Claim C2: the `/execute` response envelope -/

/-- C2: for every request to the `/execute` worker endpoint, the response
envelope echoes the request_id and agent_name of the request; its status
is "success" with a non-null output and null error exactly when the
dispatched intent handler returns without raising; an intent matching
none of the nine supported intents yields status "error" with error type
"unsupported_intent"; and a handler that raises yields status "error"
with error type "runtime_error" carrying the exception message. -/
theorem c2_execute_envelope (req : WorkerRequest)
    (handler : String → Except String OutputData) :
    (execute_intent req handler).request_id = req.request_id ∧
    (execute_intent req handler).agent_name = req.agent_name ∧
    (req.intent ∈ supportedIntents →
      (((execute_intent req handler).status = "success" ∧
        (execute_intent req handler).output.isSome = true ∧
        (execute_intent req handler).error = none) ↔
       ∃ out, handler req.intent = Except.ok out)) ∧
    (req.intent ∈ supportedIntents → ∀ msg, handler req.intent = Except.error msg →
      (execute_intent req handler).status = "error" ∧
      (execute_intent req handler).output = none ∧
      (execute_intent req handler).error = some ⟨"runtime_error", msg⟩) ∧
    (req.intent ∉ supportedIntents →
      (execute_intent req handler).status = "error" ∧
      (execute_intent req handler).output = none ∧
      (execute_intent req handler).error =
        some ⟨"unsupported_intent", "Intent " ++ req.intent ++ " is not supported"⟩) := by
  unfold execute_intent
  rw [dispatch_eq]
  by_cases hmem : req.intent ∈ supportedIntents
  · simp only [hmem, if_true]
    cases hout : handler req.intent with
    | ok out => simp [hout, hmem]
    | error msg => simp [hout, hmem]
  · simp [hmem]

/-- C2 witness: the runtime-error and unsupported-intent conclusions at
concrete requests. -/
theorem c2_execute_envelope_witness :
    (execute_intent ⟨"r1", "onboarding_agent", "onboarding.check_progress"⟩
        (fun _ => Except.error "boom")).error = some ⟨"runtime_error", "boom"⟩ ∧
    (execute_intent ⟨"r2", "onboarding_agent", "onboarding.extinct"⟩
        (fun _ => Except.ok ⟨"done", none, none⟩)).error =
      some ⟨"unsupported_intent", "Intent " ++ "onboarding.extinct" ++ " is not supported"⟩ := by
  constructor
  · exact ((c2_execute_envelope ⟨"r1", "onboarding_agent", "onboarding.check_progress"⟩
      (fun _ => Except.error "boom")).2.2.2.1 (by decide) "boom" rfl).2.2
  · exact ((c2_execute_envelope ⟨"r2", "onboarding_agent", "onboarding.extinct"⟩
      (fun _ => Except.ok ⟨"done", none, none⟩)).2.2.2.2 (by decide)).2.2

/-! ## Claim C6: structured `extra` payloads bypass text parsing -/

/-- C6: for every text and extra dict, when the extra dict carries at
least one of the keys name, email, employee_id, task_id, task_name,
`parse_input` returns the extra dict unchanged (the text contributes
nothing); otherwise the field map is extracted from the text alone, and
the extra dict contributes nothing. -/
theorem c6_parse_input_extra (text : String) (extra : List (String × String))
    (mondayIso : String) :
    ((∃ k ∈ structuredKeys, hasKey extra k = true) →
      parse_input text extra mondayIso = extra) ∧
    ((∀ k ∈ structuredKeys, hasKey extra k = false) →
      parse_input text extra mondayIso = textParse text mondayIso ∧
      parse_input text extra mondayIso = parse_input text [] mondayIso) := by
  constructor
  · rintro ⟨k, hk, hkey⟩
    have hne : extra.isEmpty = false := by
      cases extra with
      | nil => simp [hasKey] at hkey
      | cons a l => rfl
    have hany : (structuredKeys.any fun k => hasKey extra k) = true :=
      List.any_eq_true.mpr ⟨k, hk, hkey⟩
    simp [parse_input, hne, hany]
  · intro hall
    have hany : (structuredKeys.any fun k => hasKey extra k) = false := by
      simp only [List.any_eq_false]
      intro k hk
      simp [hall k hk]
    constructor
    · simp [parse_input, hany]
    · rw [parse_input, if_neg (by simp [hany]), parse_input, if_neg (by simp)]

/-- C6 witness: a structured payload is passed through unchanged; an
extra dict without the recognized keys is ignored in favour of the
text. -/
theorem c6_parse_input_extra_witness :
    parse_input "create onboarding" [("employee_id", "e-1"), ("x", "y")] "M" =
      [("employee_id", "e-1"), ("x", "y")] ∧
    parse_input "hello" [("department", "HR")] "M" = parse_input "hello" [] "M" := by
  constructor
  · exact (c6_parse_input_extra "create onboarding"
      [("employee_id", "e-1"), ("x", "y")] "M").1 ⟨"employee_id", by decide, by decide⟩
  · exact ((c6_parse_input_extra "hello" [("department", "HR")] "M").2
      (by decide)).2

/-! ## Claim C7: first-match-wins ambiguity resolution -/

/-- C7 counterexample: on the input "Welcome Engineering Team" patterns 1
and 2 fail and pattern 3 matches with capture "Welcome Engineering Team",
yet `extract_name_from_text` returns none (the capture contains the
excluded word "Engineering"), contradicting the claim that the function
returns the capture of the earliest matching pattern. -/
theorem c7_counterexample :
    rawNamePattern1 "Welcome Engineering Team" = none ∧
    rawNamePattern2 "Welcome Engineering Team" = none ∧
    rawNamePattern3 "Welcome Engineering Team" = some "Welcome Engineering Team" ∧
    extract_name_from_text "Welcome Engineering Team" = none := by decide

/-- C7 amended: `extract_department` returns the department mapped from
the first keyword, in the fixed keyword order, occurring as a substring
of the lowercased text, and none exactly when no keyword occurs;
`extract_name_from_text` returns the capture of the earliest of its three
patterns that matches, except that a pattern-3 capture equal to or
containing an excluded department/weekday/month word is rejected, giving
none rather than a later match. -/
theorem c7_first_match_wins (tl text : String) :
    extract_department tl =
      (departmentKeywords.find? fun p => containsSub p.1 tl).map Prod.snd ∧
    (extract_department tl = none ↔
      ∀ p ∈ departmentKeywords, containsSub p.1 tl = false) ∧
    (∀ n, rawNamePattern1 text = some n → extract_name_from_text text = some n) ∧
    (rawNamePattern1 text = none →
      ∀ n, rawNamePattern2 text = some n → extract_name_from_text text = some n) ∧
    (rawNamePattern1 text = none → rawNamePattern2 text = none →
      ∀ n, rawNamePattern3 text = some n →
        ((n ∉ excludedNameWords ∧
            (excludedNameWords.any fun d => containsSub d n) = false) →
          extract_name_from_text text = some n) ∧
        (¬ (n ∉ excludedNameWords ∧
            (excludedNameWords.any fun d => containsSub d n) = false) →
          extract_name_from_text text = none)) ∧
    (rawNamePattern1 text = none → rawNamePattern2 text = none →
      rawNamePattern3 text = none → extract_name_from_text text = none) := by
  refine ⟨lookupFirstSub_eq_find? departmentKeywords tl, ?_, ?_, ?_, ?_, ?_⟩
  · rw [show extract_department tl =
        (departmentKeywords.find? fun p => containsSub p.1 tl).map Prod.snd from
      lookupFirstSub_eq_find? departmentKeywords tl]
    simp [List.find?_eq_none]
  · intro n h
    simp [extract_name_from_text, h]
  · intro h1 n h2
    simp [extract_name_from_text, h1, h2]
  · intro h1 h2 n h3
    constructor
    · intro hc
      simp only [extract_name_from_text, h1, h2, h3]
      rw [if_pos hc]
    · intro hc
      simp only [extract_name_from_text, h1, h2, h3]
      rw [if_neg hc]
  · intro h1 h2 h3
    simp [extract_name_from_text, h1, h2, h3]

/-- C7 witness: the department extractor picks the first keyword in order
("engineer" before "sales"), and pattern 1 wins for a name after "for". -/
theorem c7_first_match_wins_witness :
    extract_department "new engineer in sales" = some "Engineering" ∧
    extract_name_from_text "for Alice Wong" = some "Alice Wong" := by
  have h := c7_first_match_wins "new engineer in sales" "for Alice Wong"
  exact ⟨by rw [h.1]; decide, h.2.2.1 "Alice Wong" (by decide)⟩

/-! ## Claim C3: field coverage of the free-text parser -/

lemma namePart_keys {text k : String} (h : hasKey (namePart text) k = true) :
    k = "name" ∨ k = "email" := by
  unfold namePart at h
  cases hx : extract_name_from_text text with
  | none => simp [hx, hasKey] at h
  | some n =>
    simp [hx, hasKey] at h
    rcases h with rfl | rfl <;> simp

lemma deptPart_keys {tl k : String} (h : hasKey (deptPart tl) k = true) :
    k = "department" := by
  unfold deptPart at h
  cases hx : extract_department tl with
  | none => simp [hx, hasKey] at h
  | some d =>
    simp [hx, hasKey] at h
    exact h.symm

lemma posPart_keys {tl k : String} (h : hasKey (posPart tl) k = true) :
    k = "position" := by
  unfold posPart at h
  split_ifs at h <;> simp [hasKey] at h
  exact h.symm

lemma joinPart_keys {text tl m k : String} (h : hasKey (joinPart text tl m) k = true) :
    k = "joining_date" := by
  unfold joinPart at h
  split_ifs at h <;> simp [hasKey] at h <;> exact h.symm

lemma mgrPart_keys {tl k : String} (h : hasKey (mgrPart tl) k = true) :
    k = "manager_id" := by
  unfold mgrPart at h
  cases hx : extract_department tl with
  | none => simp [hx, hasKey] at h
  | some d =>
    simp [hx, hasKey] at h
    exact h.symm

lemma empPart_keys {tl k : String} (h : hasKey (empPart tl) k = true) :
    k = "employee_id" := by
  unfold empPart at h
  cases hx : extract_employee_id tl with
  | none => simp [hx, hasKey] at h
  | some e =>
    simp [hx, hasKey] at h
    exact h.symm

lemma reportPart_keys {tl k : String} (h : hasKey (reportPart tl) k = true) :
    k = "report_type" := by
  unfold reportPart at h
  split_ifs at h <;> simp [hasKey] at h <;> exact h.symm

lemma notifPart_keys {tl k : String} (h : hasKey (notifPart tl) k = true) :
    k = "type" := by
  unfold notifPart at h
  split_ifs at h <;> simp [hasKey] at h <;> exact h.symm

lemma taskPart_keys {text tl k : String} (h : hasKey (taskPart text tl) k = true) :
    k = "task_id" ∨ k = "task_name" := by
  unfold taskPart at h
  cases hx : extract_task_id tl with
  | some tid =>
    simp [hx, hasKey] at h
    simp [h.symm]
  | none =>
    cases hy : extract_task_name text with
    | some tn =>
      simp [hx, hy, hasKey] at h
      simp [h.symm]
    | none => simp [hx, hy, hasKey] at h

/-- The only keys the free-text parser can populate. -/
lemma textParse_keys {text m k : String} (h : hasKey (textParse text m) k = true) :
    k ∈ ["name", "email", "department", "position", "joining_date", "manager_id",
         "employee_id", "report_type", "type", "task_id", "task_name"] := by
  simp only [textParse, hasKey_append, Bool.or_eq_true] at h
  rcases h with ((((((((h | h) | h) | h) | h) | h) | h) | h) | h)
  · rcases namePart_keys h with h2 | h2 <;> rw [h2] <;> decide
  · rw [deptPart_keys h]; decide
  · rw [posPart_keys h]; decide
  · rw [joinPart_keys h]; decide
  · rw [mgrPart_keys h]; decide
  · rw [empPart_keys h]; decide
  · rw [reportPart_keys h]; decide
  · rw [notifPart_keys h]; decide
  · rcases taskPart_keys h with h2 | h2 <;> rw [h2] <;> decide

/-- C3 counterexample: a free-text input containing a phone number whose
parsed field map has no phone field — `parse_input` has no phone
extractor, so the claimed populated phone field never exists. -/
theorem c3_counterexample :
    containsSub "phone 555-0101" "Create onboarding for John Smith, phone 555-0101" = true ∧
    hasKey (parse_input "Create onboarding for John Smith, phone 555-0101" []
      "2025-10-13T00:00:00") "phone" = false := by decide

/-- C3 amended: from free text (no structured extra payload) the parser
can populate each of name, email, department, position, joining date,
employee id, task id, task name and report type — but never a phone
field: no extractor produces one, so the phone key is absent from every
parsed field map. -/
theorem c3_parser_field_coverage (text mondayIso : String) :
    hasKey (textParse text mondayIso) "phone" = false ∧
    hasKey (parse_input "Create onboarding for John Smith" [] "2025-10-13T00:00:00")
      "name" = true ∧
    hasKey (parse_input "Create onboarding for John Smith" [] "2025-10-13T00:00:00")
      "email" = true ∧
    hasKey (parse_input "Create onboarding for John Smith" [] "2025-10-13T00:00:00")
      "department" = true ∧
    hasKey (parse_input "Create onboarding for John Smith" [] "2025-10-13T00:00:00")
      "position" = true ∧
    hasKey (parse_input "Create onboarding for John Smith" [] "2025-10-13T00:00:00")
      "joining_date" = true ∧
    hasKey (parse_input "check progress for employee_id: abc-123" [] "M")
      "employee_id" = true ∧
    hasKey (parse_input "complete task-1a2b now" [] "M") "task_id" = true ∧
    hasKey (parse_input "Finish security training" [] "M") "task_name" = true ∧
    hasKey (parse_input "generate summary report" [] "M") "report_type" = true := by
  refine ⟨?_, by decide, by decide, by decide, by decide, by decide, by decide,
    by decide, by decide, by decide⟩
  by_cases h : hasKey (textParse text mondayIso) "phone" = true
  · exact absurd (textParse_keys h) (by decide)
  · simpa using h

/-! ## Claim C4: `DataCollector.create_employee` validation -/

/-- An empty store. -/
def emptyDb : Database := ⟨[], [], [], [], 0⟩

/-- C4: `create_employee` raises ValueError exactly when name, personal
email, or department is missing (falsy), when the personal email contains
no `@`, when an employee with the same personal email already exists, or
when the joining date is not a datetime; whenever all validations pass it
creates, persists, and returns a new Employee record with status "active"
and a generated id. -/
theorem c4_create_employee_validation (db : Database)
    (name pe dept : Option String) (jd : JoiningDateArg)
    (mid ph pos : Option String) (now : DateTime) :
    ((∃ err, create_employee db name pe dept jd mid ph pos now = Except.error err) ↔
      (truthy name = false ∨ truthy pe = false ∨ truthy dept = false ∨
       containsSub "@" (pe.getD "") = false ∨
       (db.get_employee_by_personal_email (pe.getD "")).isSome = true ∨
       ∀ d, jd ≠ JoiningDateArg.dt d)) ∧
    (∀ emp db2, create_employee db name pe dept jd mid ph pos now = Except.ok (emp, db2) →
      emp.status = "active" ∧
      emp.id = genId db.nextId ∧
      db2.employees = db.employees ++ [emp] ∧
      emp.name = name.getD "" ∧
      emp.personal_email = pe ∧
      emp.department = dept.getD "" ∧
      emp.phone = ph ∧ emp.position = pos ∧ emp.manager_id = mid ∧
      (∀ d, jd = JoiningDateArg.dt d → emp.joining_date = d)) := by
  unfold create_employee
  split_ifs with h1 h2 h3
  · refine ⟨⟨fun _ => by tauto, fun _ => ⟨_, rfl⟩⟩, fun emp db2 hok => absurd hok (by simp)⟩
  · refine ⟨⟨fun _ => by tauto, fun _ => ⟨_, rfl⟩⟩, fun emp db2 hok => absurd hok (by simp)⟩
  · refine ⟨⟨fun _ => by tauto, fun _ => ⟨_, rfl⟩⟩, fun emp db2 hok => absurd hok (by simp)⟩
  · cases jd with
    | dt d =>
      constructor
      · constructor
        · rintro ⟨err, herr⟩
          simp at herr
        · intro hdisj
          exfalso
          rcases hdisj with h | h | h | h | h | h
          · exact h1 (Or.inl h)
          · exact h1 (Or.inr (Or.inl h))
          · exact h1 (Or.inr (Or.inr h))
          · exact h2 h
          · exact h3 h
          · exact h d rfl
      · intro emp db2 hok
        simp only [Database.create_employee, Except.ok.injEq, Prod.mk.injEq] at hok
        obtain ⟨he, hdb⟩ := hok
        subst he
        subst hdb
        refine ⟨rfl, rfl, rfl, rfl, rfl, rfl, rfl, rfl, rfl, ?_⟩
        intro d' hd'
        cases hd'
        rfl
    | str s =>
      refine ⟨⟨fun _ => ?_, fun _ => ⟨_, rfl⟩⟩, fun emp db2 hok => absurd hok (by simp)⟩
      exact Or.inr (Or.inr (Or.inr (Or.inr (Or.inr
        fun d h => JoiningDateArg.noConfusion h))))
    | nil =>
      refine ⟨⟨fun _ => ?_, fun _ => ⟨_, rfl⟩⟩, fun emp db2 hok => absurd hok (by simp)⟩
      exact Or.inr (Or.inr (Or.inr (Or.inr (Or.inr
        fun d h => JoiningDateArg.noConfusion h))))

/-- C4 witness: a successful creation at concrete arguments, with status
"active" and the generated id, and no ValueError. -/
theorem c4_create_employee_validation_witness :
    ((create_employee emptyDb (some "John Smith") (some "john@gmail.com")
        (some "Engineering") (JoiningDateArg.dt 100) (some "MGR001") (some "5550101")
        (some "Engineer") 50).map fun r => (r.1.status, r.1.id)) =
      Except.ok ("active", "uuid-0") ∧
    ¬ ∃ err, create_employee emptyDb (some "John Smith") (some "john@gmail.com")
      (some "Engineering") (JoiningDateArg.dt 100) (some "MGR001") (some "5550101")
      (some "Engineer") 50 = Except.error err := by
  have h := c4_create_employee_validation emptyDb (some "John Smith")
    (some "john@gmail.com") (some "Engineering") (JoiningDateArg.dt 100) (some "MGR001")
    (some "5550101") (some "Engineer") 50
  have hnot : ¬ (truthy (some "John Smith") = false ∨
      truthy (some "john@gmail.com") = false ∨ truthy (some "Engineering") = false ∨
      containsSub "@" ((some "john@gmail.com").getD "") = false ∨
      (emptyDb.get_employee_by_personal_email
        ((some "john@gmail.com").getD "")).isSome = true ∨
      ∀ d, JoiningDateArg.dt 100 ≠ JoiningDateArg.dt d) := by
    rintro (hx | hx | hx | hx | hx | hx)
    · exact absurd hx (by decide)
    · exact absurd hx (by decide)
    · exact absurd hx (by decide)
    · exact absurd hx (by decide)
    · exact absurd hx (by decide)
    · exact hx 100 rfl
  constructor
  · cases hok : create_employee emptyDb (some "John Smith") (some "john@gmail.com")
      (some "Engineering") (JoiningDateArg.dt 100) (some "MGR001") (some "5550101")
      (some "Engineer") 50 with
    | error e => exact absurd (h.1.mp ⟨e, hok⟩) hnot
    | ok r =>
      have hr := h.2 r.1 r.2 (by rw [hok])
      simp only [Except.map, Except.ok.injEq, Prod.mk.injEq]
      exact ⟨hr.1, hr.2.1⟩
  · intro hex
    exact hnot (h.1.mp hex)

/-! ## Claim C8: `TaskManager.assign_onboarding_tasks` -/

lemma createTasksFromRows_length (eid : String) (now : DateTime) (rows : List TaskRow)
    (db : Database) : (createTasksFromRows eid now rows db).1.length = rows.length := by
  induction rows generalizing db with
  | nil => rfl
  | cons r rest ih => simp [createTasksFromRows, ih]

lemma createTasksFromRows_mem (eid : String) (now : DateTime) (rows : List TaskRow)
    (db : Database) (h : ∀ r ∈ rows, 1 ≤ r.due_days) :
    ∀ t ∈ (createTasksFromRows eid now rows db).1,
      t.status = TaskStatus.pending ∧ t.employee_id = eid ∧
      ∃ dd, t.due_date = some dd ∧ now < dd := by
  induction rows generalizing db with
  | nil => intro t ht; cases ht
  | cons r rest ih =>
    intro t ht
    simp only [createTasksFromRows, Database.create_task, List.mem_cons] at ht
    rcases ht with rfl | ht
    · refine ⟨rfl, rfl, now + r.due_days * oneDay, rfl, ?_⟩
      have h1 : 1 ≤ r.due_days := h r (List.mem_cons_self r rest)
      simp only [oneDay]
      have h2 : (86400 : Int) ≤ r.due_days * 86400 := by
        have h3 := mul_le_mul_of_nonneg_right h1 (by norm_num : (0 : Int) ≤ 86400)
        simpa using h3
      linarith
    · exact ih _ (fun x hx => h x (List.mem_cons_of_mem r hx)) t ht

lemma dept_tasks_map_length (d : String) :
    (dept_tasks_map d).length =
      if d ∈ ["Engineering", "Sales", "Marketing", "HR"] then 3 else 0 := by
  unfold dept_tasks_map
  split <;> simp_all

lemma dept_tasks_map_due (d : String) : ∀ r ∈ dept_tasks_map d, 1 ≤ r.due_days := by
  unfold dept_tasks_map
  split <;> decide

lemma trainingRow_due (p : String) : ∀ r ∈ [trainingRow p], 1 ≤ r.due_days := by
  intro r hr
  simp only [List.mem_singleton] at hr
  subst hr
  simp [trainingRow]

lemma truthy_false_getD {o : Option String} (h : truthy o = false) : o.getD "" = "" := by
  cases o with
  | none => rfl
  | some s =>
    simp only [truthy, Bool.not_eq_false'] at h
    simpa using (String.isEmpty_iff s).mp h

/-- C8: for every existing employee, `assign_onboarding_tasks` returns
exactly 8 core tasks, plus exactly 3 department-specific tasks when the
given department is Engineering, Sales, Marketing or HR (0 for any other
or no department), plus exactly 1 role-training task when the employee
position is set; every created task is PENDING with a due date strictly
after the current clock; a missing employee raises ValueError. -/
theorem c8_assign_onboarding_tasks (db : Database) (employee_id : String)
    (department : Option String) (now : DateTime) :
    (db.get_employee employee_id = none →
      assign_onboarding_tasks db employee_id department now =
        Except.error ("Employee " ++ employee_id ++ " not found")) ∧
    (∀ emp, db.get_employee employee_id = some emp →
      ∀ tasks db2,
        assign_onboarding_tasks db employee_id department now = Except.ok (tasks, db2) →
        tasks.length = 8 +
          (if department.getD "" ∈ ["Engineering", "Sales", "Marketing", "HR"]
           then 3 else 0) +
          (if truthy emp.position = true then 1 else 0) ∧
        ∀ t ∈ tasks, t.status = TaskStatus.pending ∧ t.employee_id = employee_id ∧
          ∃ dd, t.due_date = some dd ∧ now < dd) := by
  constructor
  · intro h
    unfold assign_onboarding_tasks
    rw [h]
  · intro emp hemp tasks db2 hok
    have hcore : ∀ r ∈ core_task_data, 1 ≤ r.due_days := by decide
    have hcl : core_task_data.length = 8 := by decide
    unfold assign_onboarding_tasks at hok
    simp only [hemp] at hok
    by_cases hp : truthy emp.position = true
    · rw [if_pos hp] at hok
      by_cases hd : truthy department = true
      · rw [if_pos hd] at hok
        injection hok with hok
        injection hok with ht hdb
        subst ht
        refine ⟨?_, ?_⟩
        · simp [List.length_append, createTasksFromRows_length, dept_tasks_map_length,
            hcl, hp] <;> omega
        · intro t ht
          rcases List.mem_append.mp ht with ht2 | ht2
          · rcases List.mem_append.mp ht2 with ht3 | ht3
            · exact createTasksFromRows_mem _ _ _ _ hcore t ht3
            · exact createTasksFromRows_mem _ _ _ _ (dept_tasks_map_due _) t ht3
          · exact createTasksFromRows_mem _ _ _ _ (trainingRow_due _) t ht2
      · rw [if_neg hd] at hok
        have hd0 : department.getD "" = "" := truthy_false_getD (by simpa using hd)
        injection hok with hok
        injection hok with ht hdb
        subst ht
        refine ⟨?_, ?_⟩
        · simp [List.length_append, createTasksFromRows_length, hcl, hp, hd0] <;> omega
        · intro t ht
          rcases List.mem_append.mp ht with ht2 | ht2
          · exact createTasksFromRows_mem _ _ _ _ hcore t ht2
          · exact createTasksFromRows_mem _ _ _ _ (trainingRow_due _) t ht2
    · rw [if_neg hp] at hok
      by_cases hd : truthy department = true
      · rw [if_pos hd] at hok
        injection hok with hok
        injection hok with ht hdb
        subst ht
        refine ⟨?_, ?_⟩
        · simp [List.length_append, createTasksFromRows_length, dept_tasks_map_length,
            hcl, hp] <;> omega
        · intro t ht
          rcases List.mem_append.mp ht with ht2 | ht2
          · exact createTasksFromRows_mem _ _ _ _ hcore t ht2
          · exact createTasksFromRows_mem _ _ _ _ (dept_tasks_map_due _) t ht2
      · rw [if_neg hd] at hok
        have hd0 : department.getD "" = "" := truthy_false_getD (by simpa using hd)
        injection hok with hok
        injection hok with ht hdb
        subst ht
        refine ⟨?_, ?_⟩
        · simp [createTasksFromRows_length, hcl, hp, hd0] <;> omega
        · intro t ht
          exact createTasksFromRows_mem _ _ _ _ hcore t ht

/-- A store with one HR employee without a position, for witnesses. -/
def dbC8 : Database :=
  ⟨[⟨"e1", "Dana Roe", none, some "dana@x.com", none, "HR", none, 0, none,
     "active", 0, 0⟩], [], [], [], 1⟩

/-- C8 witness: the HR employee without a position gets 8 + 3 + 0 = 11
tasks, all PENDING. -/
theorem c8_assign_onboarding_tasks_witness :
    ((assign_onboarding_tasks dbC8 "e1" (some "HR") 0).map fun r => r.1.length) =
      Except.ok 11 ∧
    ((assign_onboarding_tasks dbC8 "e1" (some "HR") 0).map
      fun r => r.1.all fun t => t.status = TaskStatus.pending) = Except.ok true := by
  obtain ⟨tasks, db2, hok⟩ :
      ∃ tasks db2, assign_onboarding_tasks dbC8 "e1" (some "HR") 0 =
        Except.ok (tasks, db2) := by
    cases h : assign_onboarding_tasks dbC8 "e1" (some "HR") 0 with
    | error e =>
      have hisok : (assign_onboarding_tasks dbC8 "e1" (some "HR") 0).isOk = true := by
        decide
      rw [h] at hisok
      simp [Except.isOk, Except.toBool] at hisok
    | ok r =>
      obtain ⟨t0, d0⟩ := r
      exact ⟨t0, d0, rfl⟩
  have h := (c8_assign_onboarding_tasks dbC8 "e1" (some "HR") 0).2
    ⟨"e1", "Dana Roe", none, some "dana@x.com", none, "HR", none, 0, none,
     "active", 0, 0⟩ (by rfl) tasks db2 hok
  rw [hok]
  constructor
  · simp only [Except.map, Except.ok.injEq]
    rw [h.1]
    decide
  · simp only [Except.map, Except.ok.injEq]
    rw [List.all_eq_true]
    intro t ht
    simpa using (h.2 t ht).1

/-! ## Claim C10: invariants of `get_employee_progress` -/

lemma except_eq_of_toOption {α β : Type} {e : Except β α} {a : α}
    (h : e.toOption = some a) : e = Except.ok a := by
  cases e with
  | error b => simp [Except.toOption] at h
  | ok x =>
    simp only [Except.toOption, Option.some.injEq] at h
    rw [h]

lemma status_partition (l : List Task) :
    (l.filter fun t => t.status = TaskStatus.completed).length +
    (l.filter fun t => t.status = TaskStatus.pending).length +
    (l.filter fun t => t.status = TaskStatus.overdue).length +
    (l.filter fun t => t.status = TaskStatus.in_progress).length = l.length := by
  induction l with
  | nil => rfl
  | cons t ts ih =>
    cases h : t.status <;> simp [List.filter_cons, h] <;> omega

lemma ratFloor_eq_floor (q : ℚ) : q.floor = ⌊q⌋ := by
  rw [Rat.floor_def', Rat.floor_def]

lemma roundHalfEven_nonneg {q : ℚ} (h : 0 ≤ q) : 0 ≤ roundHalfEven q := by
  simp only [roundHalfEven, ratFloor_eq_floor]
  have hf : 0 ≤ ⌊q⌋ := Int.floor_nonneg.mpr h
  split_ifs <;> omega

lemma roundHalfEven_le {q : ℚ} {B : ℤ} (h : q ≤ (B : ℚ)) : roundHalfEven q ≤ B := by
  simp only [roundHalfEven, ratFloor_eq_floor]
  have hfB : ⌊q⌋ ≤ B := by
    have h2 := Int.floor_le_floor h
    simpa using h2
  have hfq : (⌊q⌋ : ℚ) ≤ q := Int.floor_le q
  split_ifs with h1 h2 h3
  · exact hfB
  · have hlt : (⌊q⌋ : ℚ) < (B : ℚ) := by linarith
    have : ⌊q⌋ < B := by exact_mod_cast hlt
    omega
  · exact hfB
  · have hge : (1 : ℚ) / 2 ≤ q - ⌊q⌋ := by linarith
    have hlt : (⌊q⌋ : ℚ) < (B : ℚ) := by linarith
    have : ⌊q⌋ < B := by exact_mod_cast hlt
    omega

lemma round1_nonneg {q : ℚ} (h : 0 ≤ q) : 0 ≤ round1 q := by
  unfold round1
  have h1 : 0 ≤ roundHalfEven (q * 10) :=
    roundHalfEven_nonneg (mul_nonneg h (by norm_num))
  have h2 : (0 : ℚ) ≤ (roundHalfEven (q * 10) : ℚ) := by exact_mod_cast h1
  linarith

lemma round1_le_100 {q : ℚ} (h : q ≤ 100) : round1 q ≤ 100 := by
  unfold round1
  have h1 : roundHalfEven (q * 10) ≤ (1000 : ℤ) := by
    apply roundHalfEven_le
    push_cast
    linarith
  have h2 : (roundHalfEven (q * 10) : ℚ) ≤ 1000 := by exact_mod_cast h1
  linarith

lemma pct_eq_100_iff {c t : ℕ} (ht : t ≠ 0) :
    ((c : ℚ) / (t : ℚ) * 100 = 100) ↔ c = t := by
  have ht' : (t : ℚ) ≠ 0 := Nat.cast_ne_zero.mpr ht
  constructor
  · intro h
    have h2 : (c : ℚ) = (t : ℚ) := by
      field_simp at h
      linarith
    exact_mod_cast h2
  · intro h
    subst h
    field_simp

/-- C10: for every existing employee the progress dict satisfies
completed + pending + overdue ≤ total (IN_PROGRESS tasks count toward the
total but toward no bucket), the completion percentage equals
100·completed/total rounded to one decimal and lies in [0, 100] (0.0 with
status "no_tasks_assigned" when the employee has no tasks), and — among
employees with tasks — the status is "completed" exactly when every task
of the employee is COMPLETED. -/
theorem c10_progress_invariants (db : Database) (employee_id : String) (pr : Progress)
    (h : get_employee_progress db employee_id = Except.ok pr) :
    pr.completed_tasks + pr.pending_tasks + pr.overdue_tasks ≤ pr.total_tasks ∧
    pr.total_tasks = pr.completed_tasks + pr.pending_tasks + pr.overdue_tasks +
      ((db.get_tasks_by_employee employee_id).filter
        fun t => t.status = TaskStatus.in_progress).length ∧
    pr.completion_percentage =
      round1 ((pr.completed_tasks : ℚ) / (pr.total_tasks : ℚ) * 100) ∧
    0 ≤ pr.completion_percentage ∧ pr.completion_percentage ≤ 100 ∧
    (pr.total_tasks = 0 →
      pr.completion_percentage = 0 ∧ pr.status = "no_tasks_assigned") ∧
    (pr.total_tasks ≠ 0 →
      (pr.status = "completed" ↔
        ∀ t ∈ db.get_tasks_by_employee employee_id,
          t.status = TaskStatus.completed)) := by
  unfold get_employee_progress at h
  cases hemp : db.get_employee employee_id with
  | none => rw [hemp] at h; cases h
  | some emp =>
    rw [hemp] at h
    simp only at h
    obtain ⟨eid2, nm2, tt2, ct2, pt2, ot2, cp2, st2⟩ := pr
    by_cases hne : (db.get_tasks_by_employee employee_id).isEmpty = true
    · rw [if_pos hne] at h
      injection h with h
      injection h with h1 h2 h3 h4 h5 h6 h7 h8
      subst h1 h2 h3 h4 h5 h6 h7 h8
      dsimp only
      have hnil : db.get_tasks_by_employee employee_id = [] :=
        List.isEmpty_iff.mp hne
      refine ⟨le_refl 0, by simp [hnil], ?_, le_refl 0, by norm_num,
        fun _ => ⟨rfl, rfl⟩, fun hz => absurd rfl hz⟩
      norm_num [round1, roundHalfEven, ratFloor_eq_floor]
    · rw [if_neg hne] at h
      injection h with h
      injection h with h1 h2 h3 h4 h5 h6 h7 h8
      subst h1 h2 h3 h4 h5 h6 h7 h8
      dsimp only
      have hlen0 : (db.get_tasks_by_employee employee_id).length ≠ 0 := by
        intro hz
        rw [List.isEmpty_iff, ← List.length_eq_zero] at hne
        exact hne hz
      have hcle : ((db.get_tasks_by_employee employee_id).filter
          fun t => t.status = TaskStatus.completed).length ≤
          (db.get_tasks_by_employee employee_id).length :=
        List.length_filter_le _ _
      have hlenq : (0 : ℚ) < ((db.get_tasks_by_employee employee_id).length : ℚ) := by
        exact_mod_cast Nat.pos_of_ne_zero hlen0
      have hple : (((db.get_tasks_by_employee employee_id).filter
          fun t => t.status = TaskStatus.completed).length : ℚ) /
          ((db.get_tasks_by_employee employee_id).length : ℚ) * 100 ≤ 100 := by
        have hr : (((db.get_tasks_by_employee employee_id).filter
            fun t => t.status = TaskStatus.completed).length : ℚ) /
            ((db.get_tasks_by_employee employee_id).length : ℚ) ≤ 1 := by
          rw [div_le_one hlenq]
          exact_mod_cast hcle
        linarith
      have hpge : (0 : ℚ) ≤ (((db.get_tasks_by_employee employee_id).filter
          fun t => t.status = TaskStatus.completed).length : ℚ) /
          ((db.get_tasks_by_employee employee_id).length : ℚ) * 100 := by
        have hdiv : (0 : ℚ) ≤ (((db.get_tasks_by_employee employee_id).filter
            fun t => t.status = TaskStatus.completed).length : ℚ) /
            ((db.get_tasks_by_employee employee_id).length : ℚ) :=
          div_nonneg (by positivity) (le_of_lt hlenq)
        linarith
      have hpart := status_partition (db.get_tasks_by_employee employee_id)
      refine ⟨by omega, by omega, rfl, round1_nonneg hpge, round1_le_100 hple,
        fun hz => absurd hz hlen0, fun _ => ?_⟩
      constructor
      · intro hst
        split_ifs at hst with h100 hov h75 h50 h0
        · rw [pct_eq_100_iff hlen0] at h100
          intro t ht
          have hall := List.filter_length_eq_length.mp h100 t ht
          simpa using hall
        all_goals exact absurd hst (by decide)
      · intro hall
        have h100 : ((db.get_tasks_by_employee employee_id).filter
            fun t => t.status = TaskStatus.completed).length =
            (db.get_tasks_by_employee employee_id).length := by
          apply List.filter_length_eq_length.mpr
          intro t ht
          simpa using hall t ht
        rw [if_pos ((pct_eq_100_iff hlen0).mpr h100)]

/-- A store with one employee and three tasks (completed, pending,
in-progress), for the C10 witness. -/
def dbC10 : Database :=
  ⟨[⟨"e1", "Alice Lee", none, some "a@x.com", none, "IT", none, 0, none,
     "active", 0, 0⟩],
   [⟨"t1", "e1", "A", "d", "policy", TaskStatus.completed, 1, some 86400, none, 0, 0⟩,
    ⟨"t2", "e1", "B", "d", "policy", TaskStatus.pending, 1, some 86400, none, 0, 0⟩,
    ⟨"t3", "e1", "C", "d", "policy", TaskStatus.in_progress, 1, some 86400, none, 0, 0⟩],
   [], [], 4⟩

/-- C10 witness: the invariants instantiated on a concrete store. -/
theorem c10_progress_invariants_witness :
    ((get_employee_progress dbC10 "e1").map fun pr =>
      decide (pr.completed_tasks + pr.pending_tasks + pr.overdue_tasks ≤ pr.total_tasks) &&
      decide (0 ≤ pr.completion_percentage) &&
      decide (pr.completion_percentage ≤ 100)) = Except.ok true := by
  cases hx : get_employee_progress dbC10 "e1" with
  | error e =>
    have hisok : (get_employee_progress dbC10 "e1").isOk = true := by decide
    rw [hx] at hisok
    simp [Except.isOk, Except.toBool] at hisok
  | ok pr =>
    have h := c10_progress_invariants dbC10 "e1" pr hx
    simp only [Except.map, Except.ok.injEq]
    rw [decide_eq_true h.1, decide_eq_true h.2.2.2.1, decide_eq_true h.2.2.2.2.1]
    rfl

/-! ## Claim C9: frame conditions of the keyed update operations -/

/-- The column-level frame the claim asserts for an employee update:
every column whose keyword argument is absent keeps its value (the
`updated_at` column is deliberately not listed — see the C9
counterexample: its `onupdate` hook refreshes it). -/
def employeeFrame (p : EmployeePatch) (e0 e1 : Employee) : Prop :=
  e1.id = e0.id ∧
  (p.name = none → e1.name = e0.name) ∧
  (p.email = none → e1.email = e0.email) ∧
  (p.personal_email = none → e1.personal_email = e0.personal_email) ∧
  (p.phone = none → e1.phone = e0.phone) ∧
  (p.department = none → e1.department = e0.department) ∧
  (p.position = none → e1.position = e0.position) ∧
  (p.joining_date = none → e1.joining_date = e0.joining_date) ∧
  (p.manager_id = none → e1.manager_id = e0.manager_id) ∧
  (p.status = none → e1.status = e0.status) ∧
  (p.created_at = none → e1.created_at = e0.created_at)

/-- Column-level frame for a task update (again without `updated_at`). -/
def taskFrame (p : TaskPatch) (t0 t1 : Task) : Prop :=
  t1.id = t0.id ∧
  (p.employee_id = none → t1.employee_id = t0.employee_id) ∧
  (p.title = none → t1.title = t0.title) ∧
  (p.description = none → t1.description = t0.description) ∧
  (p.category = none → t1.category = t0.category) ∧
  (p.status = none → t1.status = t0.status) ∧
  (p.priority = none → t1.priority = t0.priority) ∧
  (p.due_date = none → t1.due_date = t0.due_date) ∧
  (p.completed_at = none → t1.completed_at = t0.completed_at) ∧
  (p.created_at = none → t1.created_at = t0.created_at)

/-- Column-level frame for an access-request update: every column not
passed keeps its value (no auto-updated column on this record). -/
def accessFrame (p : AccessRequestPatch) (r0 r1 : AccessRequest) : Prop :=
  r1.id = r0.id ∧
  (p.employee_id = none → r1.employee_id = r0.employee_id) ∧
  (p.access_type = none → r1.access_type = r0.access_type) ∧
  (p.status = none → r1.status = r0.status) ∧
  (p.requested_at = none → r1.requested_at = r0.requested_at) ∧
  (p.completed_at = none → r1.completed_at = r0.completed_at) ∧
  (p.details = none → r1.details = r0.details) ∧
  (p.error_message = none → r1.error_message = r0.error_message)

/-- Column-level frame for a notification update (no auto-updated
column). -/
def notificationFrame (p : NotificationPatch) (n0 n1 : Notification) : Prop :=
  n1.id = n0.id ∧
  (p.employee_id = none → n1.employee_id = n0.employee_id) ∧
  (p.type = none → n1.type = n0.type) ∧
  (p.subject = none → n1.subject = n0.subject) ∧
  (p.message = none → n1.message = n0.message) ∧
  (p.sent_at = none → n1.sent_at = n0.sent_at) ∧
  (p.status = none → n1.status = n0.status) ∧
  (p.error_message = none → n1.error_message = n0.error_message) ∧
  (p.created_at = none → n1.created_at = n0.created_at)

lemma applyEmployeePatch_frame (now : DateTime) (p : EmployeePatch) (e : Employee) :
    employeeFrame p e (applyEmployeePatch now p e) := by
  refine ⟨rfl, ?_, ?_, ?_, ?_, ?_, ?_, ?_, ?_, ?_, ?_⟩ <;>
    (intro h; simp [applyEmployeePatch, h])

lemma applyTaskPatch_frame (now : DateTime) (p : TaskPatch) (t : Task) :
    taskFrame p t (applyTaskPatch now p t) := by
  refine ⟨rfl, ?_, ?_, ?_, ?_, ?_, ?_, ?_, ?_, ?_⟩ <;>
    (intro h; simp [applyTaskPatch, h])

lemma applyAccessRequestPatch_frame (p : AccessRequestPatch) (r : AccessRequest) :
    accessFrame p r (applyAccessRequestPatch p r) := by
  refine ⟨rfl, ?_, ?_, ?_, ?_, ?_, ?_, ?_⟩ <;>
    (intro h; simp [applyAccessRequestPatch, h])

lemma applyNotificationPatch_frame (p : NotificationPatch) (n : Notification) :
    notificationFrame p n (applyNotificationPatch p n) := by
  refine ⟨rfl, ?_, ?_, ?_, ?_, ?_, ?_, ?_, ?_⟩ <;>
    (intro h; simp [applyNotificationPatch, h])

lemma map_if_id {α : Type} (idOf : α → String) (f : α → α) (i : String)
    (l : List α) (h : ∀ x ∈ l, idOf x ≠ i) :
    (l.map fun x => if idOf x = i then f x else x) = l := by
  induction l with
  | nil => rfl
  | cons a as ih =>
    rw [List.map_cons, if_neg (h a (List.mem_cons_self a as)),
      ih fun x hx => h x (List.mem_cons_of_mem a hx)]

lemma updateFirstBy_eq_map {α : Type} (idOf : α → String) (f : α → α) (i : String)
    (l : List α) (h : (l.map idOf).Nodup) :
    updateFirstBy (fun x => idOf x = i) f l =
      l.map fun x => if idOf x = i then f x else x := by
  induction l with
  | nil => rfl
  | cons a as ih =>
    simp only [List.map_cons, List.nodup_cons, List.mem_map] at h
    by_cases ha : idOf a = i
    · rw [updateFirstBy, if_pos ha, List.map_cons, if_pos ha]
      have hrest : ∀ x ∈ as, idOf x ≠ i := by
        intro x hx hxi
        exact h.1 ⟨x, hx, by rw [hxi, ha]⟩
      rw [map_if_id idOf f i as hrest]
    · rw [updateFirstBy, if_neg ha, List.map_cons, if_neg ha, ih h.2]

/-- The concrete task, patch and store of the C9 counterexample. -/
def taskC9 : Task :=
  ⟨"t1", "e1", "T", "d", "policy", TaskStatus.pending, 1, some 200, none, 100, 100⟩

def patchC9 : TaskPatch := { status := some TaskStatus.completed }

def dbC9 : Database := ⟨[], [taskC9], [], [], 1⟩

/-- C9 counterexample: updating only the status of a task also changes
its updated_at column (refreshed to the current clock by the column's
`onupdate=datetime.utcnow` hook), so the update does not leave every
field other than the passed keyword arguments unchanged. -/
theorem c9_counterexample :
    patchC9.updated_at = none ∧ taskC9.updated_at = 100 ∧
    ((dbC9.update_task "t1" patchC9 500).1.map Task.updated_at) = some 500 ∧
    (dbC9.update_task "t1" patchC9 500).1 ≠
      some { taskC9 with status := TaskStatus.completed } := by decide

/-- C9 amended: each keyed update (employee, task, access request,
notification) returns None and leaves the store unchanged when no record
has the id; when a record is found (ids unique), only that record is
replaced — every other record and every store table is untouched — and
every column not passed keeps its value, except that the updated_at
column of Employee and Task rows is refreshed to the current clock by
its onupdate hook when not passed explicitly. -/
theorem c9_update_frame (db : Database) (i : String) (now : DateTime)
    (pe : EmployeePatch) (pt : TaskPatch) (pa : AccessRequestPatch)
    (pn : NotificationPatch) :
    ((db.employees.find? fun x => x.id = i) = none →
      db.update_employee i pe now = (none, db)) ∧
    ((db.tasks.find? fun x => x.id = i) = none →
      db.update_task i pt now = (none, db)) ∧
    ((db.accessRequests.find? fun x => x.id = i) = none →
      db.update_access_request i pa = (none, db)) ∧
    ((db.notifications.find? fun x => x.id = i) = none →
      db.update_notification i pn = (none, db)) ∧
    (∀ e, (db.employees.find? fun x => x.id = i) = some e →
      (db.update_employee i pe now).1 = some (applyEmployeePatch now pe e) ∧
      employeeFrame pe e (applyEmployeePatch now pe e) ∧
      (pe.updated_at = none → (applyEmployeePatch now pe e).updated_at = now) ∧
      (db.update_employee i pe now).2.tasks = db.tasks ∧
      (db.update_employee i pe now).2.accessRequests = db.accessRequests ∧
      (db.update_employee i pe now).2.notifications = db.notifications ∧
      ((db.employees.map Employee.id).Nodup →
        (db.update_employee i pe now).2.employees =
          db.employees.map (fun x => if x.id = i then applyEmployeePatch now pe x else x) ∧
        ∀ x ∈ db.employees, x.id ≠ i →
          x ∈ (db.update_employee i pe now).2.employees)) ∧
    (∀ t, (db.tasks.find? fun x => x.id = i) = some t →
      (db.update_task i pt now).1 = some (applyTaskPatch now pt t) ∧
      taskFrame pt t (applyTaskPatch now pt t) ∧
      (pt.updated_at = none → (applyTaskPatch now pt t).updated_at = now) ∧
      (db.update_task i pt now).2.employees = db.employees ∧
      (db.update_task i pt now).2.accessRequests = db.accessRequests ∧
      (db.update_task i pt now).2.notifications = db.notifications ∧
      ((db.tasks.map Task.id).Nodup →
        (db.update_task i pt now).2.tasks =
          db.tasks.map (fun x => if x.id = i then applyTaskPatch now pt x else x) ∧
        ∀ x ∈ db.tasks, x.id ≠ i → x ∈ (db.update_task i pt now).2.tasks)) ∧
    (∀ r, (db.accessRequests.find? fun x => x.id = i) = some r →
      (db.update_access_request i pa).1 = some (applyAccessRequestPatch pa r) ∧
      accessFrame pa r (applyAccessRequestPatch pa r) ∧
      (db.update_access_request i pa).2.employees = db.employees ∧
      (db.update_access_request i pa).2.tasks = db.tasks ∧
      (db.update_access_request i pa).2.notifications = db.notifications ∧
      ((db.accessRequests.map AccessRequest.id).Nodup →
        (db.update_access_request i pa).2.accessRequests =
          db.accessRequests.map
            (fun x => if x.id = i then applyAccessRequestPatch pa x else x) ∧
        ∀ x ∈ db.accessRequests, x.id ≠ i →
          x ∈ (db.update_access_request i pa).2.accessRequests)) ∧
    (∀ n, (db.notifications.find? fun x => x.id = i) = some n →
      (db.update_notification i pn).1 = some (applyNotificationPatch pn n) ∧
      notificationFrame pn n (applyNotificationPatch pn n) ∧
      (db.update_notification i pn).2.employees = db.employees ∧
      (db.update_notification i pn).2.tasks = db.tasks ∧
      (db.update_notification i pn).2.accessRequests = db.accessRequests ∧
      ((db.notifications.map Notification.id).Nodup →
        (db.update_notification i pn).2.notifications =
          db.notifications.map
            (fun x => if x.id = i then applyNotificationPatch pn x else x) ∧
        ∀ x ∈ db.notifications, x.id ≠ i →
          x ∈ (db.update_notification i pn).2.notifications)) := by
  refine ⟨?_, ?_, ?_, ?_, ?_, ?_, ?_, ?_⟩
  · intro h; unfold Database.update_employee; rw [h]
  · intro h; unfold Database.update_task; rw [h]
  · intro h; unfold Database.update_access_request; rw [h]
  · intro h; unfold Database.update_notification; rw [h]
  · intro e he
    unfold Database.update_employee
    rw [he]
    refine ⟨rfl, applyEmployeePatch_frame now pe e,
      fun h => by simp [applyEmployeePatch, h], rfl, rfl, rfl, fun hnd => ⟨?_, ?_⟩⟩
    · dsimp only
      exact updateFirstBy_eq_map Employee.id (applyEmployeePatch now pe) i db.employees hnd
    · intro x hx hxi
      dsimp only
      rw [updateFirstBy_eq_map Employee.id (applyEmployeePatch now pe) i db.employees hnd]
      exact List.mem_map.mpr ⟨x, hx, by rw [if_neg hxi]⟩
  · intro t ht
    unfold Database.update_task
    rw [ht]
    refine ⟨rfl, applyTaskPatch_frame now pt t,
      fun h => by simp [applyTaskPatch, h], rfl, rfl, rfl, fun hnd => ⟨?_, ?_⟩⟩
    · dsimp only
      exact updateFirstBy_eq_map Task.id (applyTaskPatch now pt) i db.tasks hnd
    · intro x hx hxi
      dsimp only
      rw [updateFirstBy_eq_map Task.id (applyTaskPatch now pt) i db.tasks hnd]
      exact List.mem_map.mpr ⟨x, hx, by rw [if_neg hxi]⟩
  · intro r hr
    unfold Database.update_access_request
    rw [hr]
    refine ⟨rfl, applyAccessRequestPatch_frame pa r, rfl, rfl, rfl, fun hnd => ⟨?_, ?_⟩⟩
    · dsimp only
      exact updateFirstBy_eq_map AccessRequest.id (applyAccessRequestPatch pa) i
        db.accessRequests hnd
    · intro x hx hxi
      dsimp only
      rw [updateFirstBy_eq_map AccessRequest.id (applyAccessRequestPatch pa) i
        db.accessRequests hnd]
      exact List.mem_map.mpr ⟨x, hx, by rw [if_neg hxi]⟩
  · intro n hn
    unfold Database.update_notification
    rw [hn]
    refine ⟨rfl, applyNotificationPatch_frame pn n, rfl, rfl, rfl, fun hnd => ⟨?_, ?_⟩⟩
    · dsimp only
      exact updateFirstBy_eq_map Notification.id (applyNotificationPatch pn) i
        db.notifications hnd
    · intro x hx hxi
      dsimp only
      rw [updateFirstBy_eq_map Notification.id (applyNotificationPatch pn) i
        db.notifications hnd]
      exact List.mem_map.mpr ⟨x, hx, by rw [if_neg hxi]⟩

/-- C9 witness: the found and not-found cases at a concrete store. -/
theorem c9_update_frame_witness :
    (dbC9.update_task "t1" patchC9 500).1 = some (applyTaskPatch 500 patchC9 taskC9) ∧
    taskFrame patchC9 taskC9 (applyTaskPatch 500 patchC9 taskC9) ∧
    dbC9.update_task "zzz" patchC9 500 = (none, dbC9) := by
  have h1 := (c9_update_frame dbC9 "t1" 500 {} patchC9 {} {}).2.2.2.2.2.1
    taskC9 (by decide)
  have h2 := (c9_update_frame dbC9 "zzz" 500 {} patchC9 {} {}).2.1 (by decide)
  exact ⟨h1.1, h1.2.1, h2⟩

/-! ## Claim C5: the single mail-API fallback path -/

lemma find?_id_append {l : List AccessRequest} {b : AccessRequest} {i : String}
    (h : ∀ x ∈ l, x.id ≠ i) (hb : b.id = i) :
    ((l ++ [b]).find? fun x => x.id = i) = some b := by
  rw [List.find?_append]
  have hnone : (l.find? fun x => x.id = i) = none :=
    List.find?_eq_none.mpr fun x hx => by simpa using h x hx
  rw [hnone]
  simp [List.find?_cons_of_pos, hb]

lemma updateFirstBy_append_fresh {α : Type} (p : α → Prop) [DecidablePred p]
    (f : α → α) (l : List α) (a : α) (hl : ∀ x ∈ l, ¬ p x) (ha : p a) :
    updateFirstBy p f (l ++ [a]) = l ++ [f a] := by
  induction l with
  | nil => simp [updateFirstBy, ha]
  | cons b bs ih =>
    rw [List.cons_append, updateFirstBy, if_neg (hl b (List.mem_cons_self b bs)),
      ih fun x hx => hl x (List.mem_cons_of_mem b hx), List.cons_append]

lemma update_append_fresh_status (l : List AccessRequest) (a : AccessRequest)
    (i : String) (pa : AccessRequestPatch) (h : ∀ x ∈ l, x.id ≠ i) (ha : a.id = i) :
    updateFirstBy (fun x => x.id = i) (applyAccessRequestPatch pa) (l ++ [a]) =
      l ++ [applyAccessRequestPatch pa a] :=
  updateFirstBy_append_fresh (fun x => x.id = i) (applyAccessRequestPatch pa)
    l a (fun x hx hpx => h x hx hpx) ha

/-- C5: the only recovery path for the mail-inbox API is the single
fallback: when inbox creation fails for any reason,
`generate_real_email` returns firstname.lastname@fallback.local (the
function consumes exactly one API outcome — no retry), and
`request_email_account` records the EMAIL access request with status
COMPLETED in the success case and in the fallback case alike, so the
email access request never ends in status FAILED. -/
theorem c5_email_fallback (db : Database) (employee_id : String) (emp : Employee)
    (api : Except String MailInbox) (pw : String) (now : DateTime)
    (hemp : db.get_employee employee_id = some emp)
    (first rest0 : String) (rest : List String)
    (hparts : splitWS (pyStrip emp.name) = first :: rest0 :: rest)
    (hfresh : ∀ r ∈ db.accessRequests, r.id ≠ genId db.nextId) :
    ∃ req cred db2,
      request_email_account db employee_id api pw now = some (req, cred, db2) ∧
      ((db2.accessRequests.find? fun r => r.id = req.id).map AccessRequest.status) =
        some AccessStatus.completed ∧
      (∀ r ∈ db2.accessRequests, r.id = req.id →
        r.status = AccessStatus.completed ∧ r.status ≠ AccessStatus.failed) ∧
      req.access_type = AccessType.email ∧
      (∀ e, api = Except.error e →
        cred.is_fallback = true ∧
        cred.email_address = pyLower first ++ "." ++
          pyLower (((first :: rest0 :: rest).getLast?).getD first) ++
          "@fallback.local") ∧
      (∀ inbox, api = Except.ok inbox →
        cred.is_fallback = false ∧ cred.email_address = inbox.email_address) := by
  unfold request_email_account
  simp only [hemp, Database.create_access_request]
  have hfreshF : ∀ x ∈ db.accessRequests, x.id ≠ genId db.nextId := hfresh
  cases api with
  | ok inbox =>
    simp only [generate_real_email]
    unfold Database.update_access_request
    simp only
    rw [find?_id_append hfreshF rfl]
    refine ⟨_, _, _, rfl, ?_, ?_, rfl, fun e he => Except.noConfusion he,
      fun ib hib => ?_⟩
    · dsimp only
      rw [update_append_fresh_status db.accessRequests _ (genId db.nextId) _
        hfreshF rfl]
      rw [find?_id_append hfreshF rfl]
      rfl
    · intro r hr hrid
      dsimp only at hr
      rw [update_append_fresh_status db.accessRequests _ (genId db.nextId) _
        hfreshF rfl] at hr
      rcases List.mem_append.mp hr with hin | hin
      · exact absurd hrid (hfresh r hin)
      · rw [List.mem_singleton] at hin
        subst hin
        exact ⟨rfl, fun hcon => AccessStatus.noConfusion hcon⟩
    · injection hib with h
      subst h
      exact ⟨rfl, rfl⟩
  | error e0 =>
    simp only [generate_real_email, hparts, List.isEmpty_cons]
    unfold Database.update_access_request
    simp only
    rw [find?_id_append hfreshF rfl]
    refine ⟨_, _, _, rfl, ?_, ?_, rfl, fun e he => ?_,
      fun ib hib => Except.noConfusion hib⟩
    · dsimp only
      rw [update_append_fresh_status db.accessRequests _ (genId db.nextId) _
        hfreshF rfl]
      rw [find?_id_append hfreshF rfl]
      rfl
    · intro r hr hrid
      dsimp only at hr
      rw [update_append_fresh_status db.accessRequests _ (genId db.nextId) _
        hfreshF rfl] at hr
      rcases List.mem_append.mp hr with hin | hin
      · exact absurd hrid (hfresh r hin)
      · rw [List.mem_singleton] at hin
        subst hin
        exact ⟨rfl, fun hcon => AccessStatus.noConfusion hcon⟩
    · exact ⟨rfl, rfl⟩

/-- A store with one employee, for the C5 witness. -/
def dbC5 : Database :=
  ⟨[⟨"e1", "John Smith", none, some "j@x.com", none, "IT", none, 0, none,
     "active", 0, 0⟩], [], [], [], 7⟩

/-- C5 witness: a failing MailSlurp call at a concrete store yields the
fallback address john.smith@fallback.local and a COMPLETED request. -/
theorem c5_email_fallback_witness :
    ((request_email_account dbC5 "e1" (Except.error "boom") "pw" 9).map
      fun x => (x.2.1.email_address, x.2.1.is_fallback)) =
      some ("john.smith@fallback.local", true) ∧
    ((request_email_account dbC5 "e1" (Except.error "boom") "pw" 9).map
      fun x => (x.2.2.accessRequests.find? fun r => r.id = x.1.id).map
        AccessRequest.status) = some (some AccessStatus.completed) := by
  obtain ⟨req, cred, db2, hrun, hst, hall, hty, hfb, hok⟩ :=
    c5_email_fallback dbC5 "e1"
      ⟨"e1", "John Smith", none, some "j@x.com", none, "IT", none, 0, none,
        "active", 0, 0⟩
      (Except.error "boom") "pw" 9 (by rfl) "John" "Smith" [] (by decide)
      (by intro r hr; cases hr)
  rw [hrun]
  obtain ⟨hfb1, hfb2⟩ := hfb "boom" rfl
  constructor
  · simp only [Option.map_some', Option.some.injEq]
    rw [hfb2, hfb1]
    constructor <;> decide
  · simp only [Option.map_some']
    rw [hst]

/-! ## Claim C1: completeness and the provisioning trigger -/

/-- An employee record with every required profile field populated
(name, email, department and joining date), for the C1 counterexample. -/
def empC1 : Employee :=
  ⟨"e1", "John Smith", some "john.smith@company.com", some "john@gmail.com",
   some "5550101", "Engineering", some "Engineer", 0, some "MGR001", "active", 0, 0⟩

/-- A store holding `empC1` and no tasks. -/
def dbC1 : Database := ⟨[empC1], [], [], [], 1⟩

/-- C1 counterexample: for a record with every required profile field
populated the fraction of populated required profile fields is 1, yet
the completeness value the progress/completeness state model computes is
0.0 with status no_tasks_assigned — a fraction of completed tasks, not
of profile fields — and the completeness gate does not pass; moreover
onboarding.create cannot trigger provisioning on any input at all: its
create_employee call passes the keyword email to a callee whose
signature takes personal_email, raising TypeError before the
access-setup background task is scheduled, so even a fully valid
request errors out with provisioning never initiated. -/
theorem c1_counterexample :
    (get_employee_progress dbC1 "e1").toOption.map
        (fun p => (p.completion_percentage, p.status)) =
      some (0, "no_tasks_assigned") ∧
    completenessGatePasses dbC1 "e1" = false ∧
    profileFieldsFraction empC1 = 1 ∧
    (0 : ℚ) ≠ 100 * profileFieldsFraction empC1 ∧
    handle_create_onboarding dbC1 (some "Ann Bell") (some "ann@gmail.com")
        (some "HR") (JoiningDateArg.dt 0) none none none 0 =
      Except.error "create_employee() got an unexpected keyword argument: email" := by
  have h4 : populatedRequiredFields empC1 = 4 := by decide
  refine ⟨by decide, by decide, ?_, ?_, rfl⟩
  · rw [profileFieldsFraction, h4]
    norm_num
  · rw [profileFieldsFraction, h4]
    norm_num

/-- C1 amended: the completeness value the progress/completeness state
model computes is the fraction of the employee's assigned tasks that are
completed, not the fraction of populated profile fields — an employee
with no assigned tasks has completeness 0.0 with status
no_tasks_assigned and a failing gate however many profile fields are
populated; and onboarding.create never initiates provisioning for any
input: the create_employee call of `handle_create_onboarding` passes the
keyword email to a callee whose signature takes personal_email, raising
TypeError before the access-setup background task is scheduled, so the
handler always returns an error and never a flow result — in particular
(only vacuously) no employee record whose completeness gate does not
pass has provisioning initiated by onboarding.create. -/
theorem c1_provisioning_never_initiated (db : Database)
    (name email dept : Option String) (jd : JoiningDateArg)
    (mid ph pos : Option String) (now : DateTime) :
    handle_create_onboarding db name email dept jd mid ph pos now =
      Except.error "create_employee() got an unexpected keyword argument: email" ∧
    (∀ r : FlowResult,
      handle_create_onboarding db name email dept jd mid ph pos now ≠
        Except.ok r) ∧
    (∀ emp, db.get_employee emp.id = some emp →
      db.get_tasks_by_employee emp.id = [] →
      (get_employee_progress db emp.id).toOption.map
          (fun p => (p.completion_percentage, p.status)) =
          some (0, "no_tasks_assigned") ∧
        completenessGatePasses db emp.id = false) := by
  refine ⟨rfl, fun r h => Except.noConfusion h, ?_⟩
  intro emp hemp hnil
  have hprog : get_employee_progress db emp.id =
      Except.ok ⟨emp.id, emp.name, 0, 0, 0, 0, 0, "no_tasks_assigned"⟩ := by
    unfold get_employee_progress
    simp only [hemp, hnil]
    rfl
  constructor
  · rw [hprog]
    rfl
  · unfold completenessGatePasses
    rw [hprog]
    show decide ((0 : ℚ) = 100) = false
    decide

/-- C1 witness: the amended facts at a concrete store and a concrete,
fully populated request. -/
theorem c1_provisioning_never_initiated_witness :
    handle_create_onboarding dbC1 (some "John Smith") (some "john@gmail.com")
        (some "Engineering") (JoiningDateArg.dt 0) (some "MGR001")
        (some "5550101") (some "Engineer") 0 =
      Except.error "create_employee() got an unexpected keyword argument: email" ∧
    completenessGatePasses dbC1 empC1.id = false := by
  have h := c1_provisioning_never_initiated dbC1 (some "John Smith")
    (some "john@gmail.com") (some "Engineering") (JoiningDateArg.dt 0)
    (some "MGR001") (some "5550101") (some "Engineer") 0
  exact ⟨h.1, (h.2.2 empC1 (by decide) (by decide)).2⟩

end Onboarding
